import Mathlib

/-!
Verification development for the subscription-decoding and config-assembly
pipeline of `gen_clash_from_url` (source files `core.py` and
`gen_clash_from_url.py`).  Strings are modelled as lists of characters,
Python `bytes` as lists of naturals below 256, and Python exceptions as the
`Except.error` constructor, so that "the call raises" is an observable value
of the model rather than an effect.
-/

/-- Python strings are modelled as lists of characters. -/
abbrev Str := List Char

/-- Convenience conversion from Lean string literals into the model type. -/
def cs (s : String) : Str := s.toList

/-- Whitespace recognised by the model of Python `str.strip` (the ASCII
whitespace characters; the sources only ever strip newlines and spaces). -/
def isPySpace (c : Char) : Bool :=
  c = ' ' || c = '\t' || c = '\n' || c = '\r' || c = '\x0b' || c = '\x0c'

/-- Model of Python `str.strip()`: drop whitespace from both ends. -/
def pyStrip (s : Str) : Str :=
  ((s.dropWhile isPySpace).reverse.dropWhile isPySpace).reverse

/-- Model of Python `s.split(c, 1)`: the part before the first occurrence of
`c` and the part after it (the whole string and `[]` when `c` is absent,
matching `s.split(c, 1) == [s]`). -/
def splitOnce (s : Str) (c : Char) : Str × Str :=
  (s.takeWhile (fun x => x != c), (s.dropWhile (fun x => x != c)).drop 1)

/-- Model of Python `s.rsplit(c, 1)`: split at the last occurrence of `c`. -/
def rsplitOnce (s : Str) (c : Char) : Str × Str :=
  ((splitOnce s.reverse c).2.reverse, (splitOnce s.reverse c).1.reverse)

/-- Value of a decimal digit character. -/
def digitVal (c : Char) : Nat := c.toNat - 48

/-- Digit-sequence scanner for the model of Python `int()`: digits with
single underscores allowed between digits (CPython grammar). -/
def pyDigitsGo (acc : Nat) : Str → Option Nat
  | [] => some acc
  | c :: r =>
    if c = '_' then
      match r with
      | c2 :: r2 => if c2.isDigit then pyDigitsGo (acc * 10 + digitVal c2) r2 else none
      | [] => none
    else if c.isDigit then pyDigitsGo (acc * 10 + digitVal c) r else none

/-- Unsigned part of the model of Python `int()`: at least one digit. -/
def pyIntCore : Str → Option Nat
  | c :: r => if c.isDigit then pyDigitsGo (digitVal c) r else none
  | [] => none

/-- Model of Python `int(s)` on a string: strip whitespace, optional sign,
then a nonempty digit sequence; anything else raises `ValueError`
(modelled as `Except.error`). -/
def pyInt (s : Str) : Except Unit Int :=
  match pyStrip s with
  | [] => .error ()
  | c :: r =>
    if c = '+' then
      match pyIntCore r with | some n => .ok (n : Int) | none => .error ()
    else if c = '-' then
      match pyIntCore r with | some n => .ok (-(n : Int)) | none => .error ()
    else
      match pyIntCore (c :: r) with | some n => .ok (n : Int) | none => .error ()

/-- Standard base64 alphabet value of a character (the `table_a2b_base64`
lookup of CPython's `binascii`), `none` for characters outside the
alphabet. -/
def sextet (c : Char) : Option Nat :=
  if 'A' ≤ c ∧ c ≤ 'Z' then some (c.toNat - 65)
  else if 'a' ≤ c ∧ c ≤ 'z' then some (c.toNat - 71)
  else if '0' ≤ c ∧ c ≤ '9' then some (c.toNat + 4)
  else if c = '+' then some 62
  else if c = '/' then some 63
  else none

/-- Model of the character translation performed by
`base64.urlsafe_b64decode` before decoding: `-` to `+` and `_` to `/`. -/
def urlsafeTrans (c : Char) : Char :=
  if c = '-' then '+' else if c = '_' then '/' else c

/-- Model of CPython `binascii.a2b_base64` in non-strict mode (the decoder
behind `base64.b64decode(s)` with `validate=False`): characters outside the
alphabet are skipped, a padding character at quad position at least 2 that
completes a quad ends the decode, and a leftover quad position of 1 or an
incomplete padded quad at the end raises `binascii.Error`.  Arguments after
the input are the quad position, the pending bits (`leftchar`) and the
count of consecutive padding characters seen at quad position at least 2. -/
def a2bGo : Str → Nat → Nat → Nat → Except Unit (List Nat)
  | [], q, _, _ => if q = 0 then .ok [] else .error ()
  | c :: rest, q, left, pads =>
    if c = '=' then
      if 2 ≤ q then
        if 4 ≤ q + pads + 1 then .ok []
        else a2bGo rest q left (pads + 1)
      else a2bGo rest q left pads
    else
      match sextet c with
      | none => a2bGo rest q left pads
      | some v =>
        match q with
        | 0 => a2bGo rest 1 v 0
        | 1 => (fun bs => (left * 4 + v / 16) :: bs) <$> a2bGo rest 2 (v % 16) 0
        | 2 => (fun bs => (left * 16 + v / 4) :: bs) <$> a2bGo rest 3 (v % 4) 0
        | _ => (fun bs => (left * 64 + v) :: bs) <$> a2bGo rest 0 0 0

/-- Model of `base64.b64decode(s)` (default `validate=False`). -/
def b64decode (s : Str) : Except Unit (List Nat) := a2bGo s 0 0 0

/-- Model of `base64.urlsafe_b64decode(s)`: translate the URL-safe alphabet
to the standard one, then decode. -/
def urlsafe_b64decode (s : Str) : Except Unit (List Nat) :=
  b64decode (s.map urlsafeTrans)

/-- Embedding of `b64decode_any` (`core.py` lines 22-32): strip, return empty
bytes for the empty string, append the padding deficit, try the URL-safe
decoder and fall back to the standard decoder.  The fallback call is not
guarded, so its failure is the caller's problem. -/
def b64decode_any (s : Str) : Except Unit (List Nat) :=
  if pyStrip s = [] then .ok []
  else
    match urlsafe_b64decode
        (pyStrip s ++ List.replicate ((4 - (pyStrip s).length % 4) % 4) '=') with
    | .ok b => .ok b
    | .error _ =>
      b64decode (pyStrip s ++ List.replicate ((4 - (pyStrip s).length % 4) % 4) '=')

/-- Character of a base64 sextet value (standard alphabet). -/
def encChar (k : Nat) : Char :=
  if k < 26 then Char.ofNat (65 + k)
  else if k < 52 then Char.ofNat (97 + (k - 26))
  else if k < 62 then Char.ofNat (48 + (k - 52))
  else if k = 62 then '+' else '/'

/-- Model of `base64.b64encode` (standard alphabet, with `=` padding). -/
def b64encode : List Nat → Str
  | a :: b :: c :: r =>
    encChar (a / 4) :: encChar (a % 4 * 16 + b / 16) ::
      encChar (b % 16 * 4 + c / 64) :: encChar (c % 64) :: b64encode r
  | [a, b] => [encChar (a / 4), encChar (a % 4 * 16 + b / 16), encChar (b % 16 * 4), '=']
  | [a] => [encChar (a / 4), encChar (a % 4 * 16), '=', '=']
  | [] => []

/-- The same encoding with the trailing `=` padding stripped. -/
def b64encodeNoPad : List Nat → Str
  | a :: b :: c :: r =>
    encChar (a / 4) :: encChar (a % 4 * 16 + b / 16) ::
      encChar (b % 16 * 4 + c / 64) :: encChar (c % 64) :: b64encodeNoPad r
  | [a, b] => [encChar (a / 4), encChar (a % 4 * 16 + b / 16), encChar (b % 16 * 4)]
  | [a] => [encChar (a / 4), encChar (a % 4 * 16)]
  | [] => []

/-- Translation to the URL-safe alphabet: `+` to `-` and `/` to `_`. -/
def stdToUrl (c : Char) : Char :=
  if c = '+' then '-' else if c = '/' then '_' else c

/-- Model of `base64.urlsafe_b64encode`. -/
def urlsafe_b64encode (bs : List Nat) : Str := (b64encode bs).map stdToUrl

/-- Error-handler modes of Python `bytes.decode("utf-8", mode)`. -/
inductive UErr where
  | strict
  | ignore
  | replace
deriving DecidableEq

/-- Is a byte a UTF-8 continuation byte? -/
def isCont (b : Nat) : Bool := 128 ≤ b && b ≤ 191

/-- Model of CPython `bytes.decode("utf-8", mode)`: the standard UTF-8
ranges with surrogates and over-long forms rejected.  On an invalid
sequence `strict` fails (a `UnicodeDecodeError`), `ignore` skips the
offending byte and `replace` emits U+FFFD for it.  (CPython's error
handlers can skip several bytes of a truncated sequence at once; the
sources only decode ASCII or wholly valid text, where the modes agree.) -/
def utf8DecAux (m : UErr) : Nat → List Nat → Option Str
  | 0, bs => if bs = [] then some [] else none
  | _ + 1, [] => some []
  | fuel + 1, b0 :: r =>
    if b0 < 128 then
      (fun t => Char.ofNat b0 :: t) <$> utf8DecAux m fuel r
    else
      match r with
      | b1 :: r2 =>
        if 194 ≤ b0 ∧ b0 ≤ 223 then
          if isCont b1 then
            (fun t => Char.ofNat ((b0 - 192) * 64 + (b1 - 128)) :: t) <$> utf8DecAux m fuel r2
          else match m with
            | .strict => none
            | .ignore => utf8DecAux m fuel r
            | .replace => (fun t => '\uFFFD' :: t) <$> utf8DecAux m fuel r
        else
          match r2 with
          | b2 :: r3 =>
            if 224 ≤ b0 ∧ b0 ≤ 239 then
              if (if b0 = 224 then 160 ≤ b1 && b1 ≤ 191
                  else if b0 = 237 then 128 ≤ b1 && b1 ≤ 159
                  else isCont b1) && isCont b2 then
                (fun t => Char.ofNat ((b0 - 224) * 4096 + (b1 - 128) * 64 + (b2 - 128)) :: t)
                  <$> utf8DecAux m fuel r3
              else match m with
                | .strict => none
                | .ignore => utf8DecAux m fuel r
                | .replace => (fun t => '\uFFFD' :: t) <$> utf8DecAux m fuel r
            else
              match r3 with
              | b3 :: r4 =>
                if 240 ≤ b0 ∧ b0 ≤ 244 then
                  if (if b0 = 240 then 144 ≤ b1 && b1 ≤ 191
                      else if b0 = 244 then 128 ≤ b1 && b1 ≤ 143
                      else isCont b1) && isCont b2 && isCont b3 then
                    (fun t =>
                        Char.ofNat ((b0 - 240) * 262144 + (b1 - 128) * 4096 +
                          (b2 - 128) * 64 + (b3 - 128)) :: t) <$> utf8DecAux m fuel r4
                  else match m with
                    | .strict => none
                    | .ignore => utf8DecAux m fuel r
                    | .replace => (fun t => '\uFFFD' :: t) <$> utf8DecAux m fuel r
                else match m with
                  | .strict => none
                  | .ignore => utf8DecAux m fuel r
                  | .replace => (fun t => '\uFFFD' :: t) <$> utf8DecAux m fuel r
              | [] => match m with
                | .strict => none
                | .ignore => utf8DecAux m fuel r
                | .replace => (fun t => '\uFFFD' :: t) <$> utf8DecAux m fuel r
          | [] => match m with
            | .strict => none
            | .ignore => utf8DecAux m fuel r
            | .replace => (fun t => '\uFFFD' :: t) <$> utf8DecAux m fuel r
      | [] => match m with
        | .strict => none
        | .ignore => utf8DecAux m fuel []
        | .replace => (fun t => '\uFFFD' :: t) <$> utf8DecAux m fuel []

/-- Model of `bytes.decode("utf-8", mode)` (see `utf8DecAux`). -/
def utf8Dec (m : UErr) (bs : List Nat) : Option Str := utf8DecAux m bs.length bs

/-- Model of `bytes.decode("utf-8", "strict")`. -/
def utf8DecStrict (bs : List Nat) : Option Str := utf8Dec .strict bs

/-- Model of `bytes.decode("utf-8", "ignore")`, which never fails. -/
def utf8DecIgnore (bs : List Nat) : Str := (utf8Dec .ignore bs).getD []

/-- Model of `bytes.decode("utf-8", "replace")`, which never fails. -/
def utf8DecReplace (bs : List Nat) : Str := (utf8Dec .replace bs).getD []

/-- Is a character an ASCII hexadecimal digit? -/
def isHexCh (c : Char) : Bool :=
  c.isDigit || decide ('a' ≤ c ∧ c ≤ 'f') || decide ('A' ≤ c ∧ c ≤ 'F')

/-- Value of an ASCII hexadecimal digit. -/
def hexVal (c : Char) : Nat :=
  if c.isDigit then c.toNat - 48
  else if decide ('a' ≤ c) then c.toNat - 87
  else c.toNat - 55

/-- Collect the bytes of a maximal run of `%XX` escapes, returning the run's
bytes and the remaining input (helper for the model of `urllib.parse.unquote`). -/
def pctRun : Str → List Nat × Str
  | '%' :: a :: b :: r =>
    if isHexCh a && isHexCh b then
      let p := pctRun r
      ((hexVal a * 16 + hexVal b) :: p.1, p.2)
    else ([], '%' :: a :: b :: r)
  | s => ([], s)

/-- Fueled worker for the model of `urllib.parse.unquote`. -/
def unquoteAux : Nat → Str → Str
  | 0, _ => []
  | _ + 1, [] => []
  | fuel + 1, c :: r =>
    if c = '%' then
      match r with
      | a :: b :: r2 =>
        if isHexCh a && isHexCh b then
          let p := pctRun ('%' :: a :: b :: r2)
          utf8DecReplace p.1 ++ unquoteAux fuel p.2
        else '%' :: unquoteAux fuel r
      | _ => '%' :: unquoteAux fuel r
    else c :: unquoteAux fuel r

/-- Model of `urllib.parse.unquote(s)`: each maximal run of valid `%XX`
escapes is percent-decoded to bytes and UTF-8-decoded with the `replace`
error handler; invalid escapes and other characters pass through. -/
def unquote (s : Str) : Str := unquoteAux s.length s

/-- Python values produced by `json.loads` and stored in proxy mappings:
`None`, booleans, integers, strings, lists and (ordered) dicts.  The
sources never produce fractional JSON numbers, so numbers are integers
here; the JSON parser below rejects number tokens with a fraction or an
exponent rather than mis-reading them. -/
inductive Json where
  | null : Json
  | bool (b : Bool) : Json
  | num (n : Int) : Json
  | str (s : Str) : Json
  | arr (xs : List Json) : Json
  | obj (kvs : List (Str × Json)) : Json

/-- JSON whitespace skipped by `json.loads` (space, tab, newline, return). -/
def jsonWs (s : Str) : Str :=
  s.dropWhile (fun c => c == ' ' || c == '\t' || c == '\n' || c == '\r')

/-- Parse the four hexadecimal digits of a `\uXXXX` escape. -/
def hex4 (a b c d : Char) : Option Nat :=
  if isHexCh a && isHexCh b && isHexCh c && isHexCh d then
    some (hexVal a * 4096 + hexVal b * 256 + hexVal c * 16 + hexVal d)
  else none

/-- Scan a JSON string body after the opening quote: content and remaining
input after the closing quote.  Strict mode of `json.loads`: raw control
characters are rejected; the escapes are the JSON ones.  Surrogate pairs in
`\u` escapes are combined; a lone surrogate (which Python would keep as a
surrogate code unit) falls back to `Char.ofNat`'s default, a divergence no
input of this development exercises. -/
def jsonStrAux : Nat → Str → Option (Str × Str)
  | 0, _ => none
  | _ + 1, [] => none
  | _ + 1, '"' :: r => some ([], r)
  | fuel + 1, '\\' :: e :: r =>
    match e, r with
    | 'u', a :: b :: c :: d :: r2 =>
      match hex4 a b c d with
      | none => none
      | some v =>
        if 55296 ≤ v ∧ v ≤ 56319 then
          match r2 with
          | '\\' :: 'u' :: a2 :: b2 :: c2 :: d2 :: r3 =>
            match hex4 a2 b2 c2 d2 with
            | some w =>
              if 56320 ≤ w ∧ w ≤ 57343 then
                (fun p => (Char.ofNat (65536 + (v - 55296) * 1024 + (w - 56320)) :: p.1, p.2))
                  <$> jsonStrAux fuel r3
              else (fun p => (Char.ofNat v :: Char.ofNat w :: p.1, p.2)) <$> jsonStrAux fuel r3
            | none => none
          | _ => (fun p => (Char.ofNat v :: p.1, p.2)) <$> jsonStrAux fuel r2
        else (fun p => (Char.ofNat v :: p.1, p.2)) <$> jsonStrAux fuel r2
    | '"', _ => (fun p => ('"' :: p.1, p.2)) <$> jsonStrAux fuel r
    | '\\', _ => (fun p => ('\\' :: p.1, p.2)) <$> jsonStrAux fuel r
    | '/', _ => (fun p => ('/' :: p.1, p.2)) <$> jsonStrAux fuel r
    | 'b', _ => (fun p => ('\x08' :: p.1, p.2)) <$> jsonStrAux fuel r
    | 'f', _ => (fun p => ('\x0c' :: p.1, p.2)) <$> jsonStrAux fuel r
    | 'n', _ => (fun p => ('\n' :: p.1, p.2)) <$> jsonStrAux fuel r
    | 'r', _ => (fun p => ('\r' :: p.1, p.2)) <$> jsonStrAux fuel r
    | 't', _ => (fun p => ('\t' :: p.1, p.2)) <$> jsonStrAux fuel r
    | _, _ => none
  | fuel + 1, c :: r =>
    if c.toNat < 32 then none
    else (fun p => (c :: p.1, p.2)) <$> jsonStrAux fuel r

/-- Scan a JSON string body (see `jsonStrAux`). -/
def jsonStrGo (s : Str) : Option (Str × Str) := jsonStrAux s.length s

/-- Scan the digits of a JSON integer token. -/
def jsonDigits (s : Str) : Str × Str := (s.takeWhile Char.isDigit, s.dropWhile Char.isDigit)

/-- Numeric value of a digit string. -/
def digitsVal (ds : Str) : Nat := ds.foldl (fun acc c => acc * 10 + digitVal c) 0

/-- Parse a JSON integer token (leading-zero rule of the JSON grammar;
tokens continuing with `.`, `e` or `E` would be floats and are rejected by
this integer-only model). -/
def jsonNum (s : Str) : Option (Int × Str) :=
  let sgn : Bool := match s with | '-' :: _ => true | _ => false
  let t := if sgn then s.drop 1 else s
  match jsonDigits t with
  | ([], _) => none
  | (ds, r) =>
    if ds.length > 1 ∧ ds.headI = '0' then none
    else match r with
    | '.' :: _ => none
    | 'e' :: _ => none
    | 'E' :: _ => none
    | _ => some (if sgn then -(digitsVal ds : Int) else (digitsVal ds : Int), r)

mutual

/-- Fueled JSON value parser (model of `json.loads`'s grammar). -/
def jsonValue : Nat → Str → Option (Json × Str)
  | 0, _ => none
  | fuel + 1, s =>
    match s with
    | '{' :: r =>
      match jsonWs r with
      | '}' :: r2 => some (.obj [], r2)
      | r1 => jsonObjLoop fuel r1 []
    | '[' :: r =>
      match jsonWs r with
      | ']' :: r2 => some (.arr [], r2)
      | r1 => jsonArrLoop fuel r1 []
    | '"' :: r => (fun p => (Json.str p.1, p.2)) <$> jsonStrGo r
    | 't' :: 'r' :: 'u' :: 'e' :: r => some (.bool true, r)
    | 'f' :: 'a' :: 'l' :: 's' :: 'e' :: r => some (.bool false, r)
    | 'n' :: 'u' :: 'l' :: 'l' :: r => some (.null, r)
    | _ => (fun p => (Json.num p.1, p.2)) <$> jsonNum s

/-- Fueled member loop of a JSON object (after `{` and leading whitespace,
when the object is not empty). -/
def jsonObjLoop : Nat → Str → List (Str × Json) → Option (Json × Str)
  | 0, _, _ => none
  | fuel + 1, s, acc =>
    match s with
    | '"' :: r =>
      match jsonStrGo r with
      | none => none
      | some (key, r2) =>
        match jsonWs r2 with
        | ':' :: r3 =>
          match jsonValue fuel (jsonWs r3) with
          | none => none
          | some (v, r4) =>
            match jsonWs r4 with
            | ',' :: r5 => jsonObjLoop fuel (jsonWs r5) (acc ++ [(key, v)])
            | '}' :: r5 => some (.obj (acc ++ [(key, v)]), r5)
            | _ => none
        | _ => none
    | _ => none

/-- Fueled element loop of a JSON array (after `[` and leading whitespace,
when the array is not empty). -/
def jsonArrLoop : Nat → Str → List Json → Option (Json × Str)
  | 0, _, _ => none
  | fuel + 1, s, acc =>
    match jsonValue fuel s with
    | none => none
    | some (v, r) =>
      match jsonWs r with
      | ',' :: r2 => jsonArrLoop fuel (jsonWs r2) (acc ++ [v])
      | ']' :: r2 => some (.arr (acc ++ [v]), r2)
      | _ => none

end

/-- Model of `json.loads(s)`: parse one value with surrounding whitespace;
`none` is the `json.JSONDecodeError` outcome.  The fuel is one more than
the input length, which bounds the recursion depth since every nested
parse strictly consumes input. -/
def jsonLoads (s : Str) : Option Json :=
  match jsonValue (s.length + 1) (jsonWs s) with
  | some (v, rest) => if jsonWs rest = [] then some v else none
  | none => none

/-- Embedding of the `Node` dataclass: a display name and the proxy mapping.
The `name` field is typed `str` in the source but is populated with
whatever `json.loads` produced for a vmess `ps`/`remark` field, so it is a
`Json` value here. -/
structure Node where
  name : Json
  data : List (Str × Json)

/-- Lookup in an ordered key-value list with Python-dict semantics: when a
key occurs twice (as it can when built from JSON with duplicate keys, where
the later member wins), the last binding is returned. -/
def jLookup (kvs : List (Str × Json)) (k : Str) : Option Json :=
  match kvs.reverse.find? (fun p => p.1 == k) with
  | some p => some p.2
  | none => none

/-- Mapping lookup for the node and configuration mappings built by this
program (whose keys are unique, so the first match is the binding). -/
def dictGet (kvs : List (Str × Json)) (k : Str) : Option Json :=
  match kvs.find? (fun p => p.1 == k) with
  | some p => some p.2
  | none => none

/-- Model of `conf.get(k)` on the result of `json.loads`: `Json.null` (Python
`None`) when the key is absent, and an `AttributeError` (modelled as
`Except.error`) when `conf` is not a dict. -/
def jGet (conf : Json) (k : Str) : Except Unit Json :=
  match conf with
  | .obj kvs => .ok ((jLookup kvs k).getD .null)
  | _ => .error ()

/-- Python truthiness of the modelled values. -/
def jTruthy : Json → Bool
  | .null => false
  | .bool b => b
  | .num n => n != 0
  | .str s => !s.isEmpty
  | .arr xs => !xs.isEmpty
  | .obj kvs => !kvs.isEmpty

/-- Model of the Python `or` operator on these values: the left operand if
truthy, otherwise the right one, with left-to-right (short-circuit)
evaluation of the possibly-raising operands. -/
def orJ (a b : Except Unit Json) : Except Unit Json :=
  match a with
  | .error e => .error e
  | .ok v => if jTruthy v then .ok v else b

/-- Model of `int(v)` on a value extracted from JSON: identity on ints,
`False`/`True` to 0/1, string parsing via `pyInt`, and a `TypeError`
(modelled as `Except.error`) on anything else. -/
def pyIntJson : Json → Except Unit Int
  | .num n => .ok n
  | .bool b => .ok (if b then 1 else 0)
  | .str s => pyInt s
  | _ => .error ()

/-- Model of `v.lower()` on a value extracted from JSON: defined on strings,
an `AttributeError` (modelled as `Except.error`) otherwise. -/
def pyLower : Json → Except Unit Str
  | .str s => .ok (s.map Char.toLower)
  | _ => .error ()

/-- Does a `Json` value equal a given Python string (Python `==`, which is
`False` across types)? -/
def jEqStr (v : Json) (s : Str) : Bool :=
  match v with
  | .str t => t == s
  | _ => false

/-- The ss `Node` built by `parse_ss` (`core.py` lines 109-119): name from
the tag or `ss@host:port`, and the fixed seven-key mapping. -/
def mkSsNode (tag method password host : Str) (port : Int) : Node :=
  let name := if tag = [] then cs "ss@" ++ host ++ ':' :: cs (toString port) else tag
  { name := .str name
    data := [(cs "name", .str name), (cs "type", .str (cs "ss")), (cs "server", .str host),
             (cs "port", .num port), (cs "cipher", .str method), (cs "password", .str password),
             (cs "udp", .bool true)] }

/-- Embedding of the host-port step of `parse_ss` (`core.py` lines 94-107):
bracketed IPv6 when the string starts with `[` and contains `]`, otherwise
a split at the last `:`; `int` failures propagate. -/
def ssHostPort (hp : Str) : Except Unit (Option (Str × Int)) :=
  if (match hp with | '[' :: _ => true | _ => false) && hp.contains ']' then
    let host := (splitOnce (hp.drop 1) ']').1
    let tail := (splitOnce (hp.drop 1) ']').2
    match tail with
    | ':' :: p =>
      (match pyInt p with
       | .ok port => .ok (some (host, port))
       | .error e => .error e)
    | _ => .ok none
  else
    if hp.contains ':' then
      (match pyInt (rsplitOnce hp ':').2 with
       | .ok port => .ok (some ((rsplitOnce hp ':').1, port))
       | .error e => .error e)
    else .ok none

/-- Embedding of `parse_ss` from the `rest2` string on (`core.py` lines
86-119): authority split, host-port parse, node construction. -/
def ssFromRest2 (rest2 tag : Str) : Except Unit (Option Node) :=
  if !rest2.contains '@' then .ok none
  else
    let auth := (splitOnce rest2 '@').1
    let hostport := (splitOnce rest2 '@').2
    if !auth.contains ':' then .ok none
    else
      let method := (splitOnce auth ':').1
      let password := (splitOnce auth ':').2
      match ssHostPort (pyStrip hostport) with
      | .error e => .error e
      | .ok none => .ok none
      | .ok (some (host, port)) => .ok (some (mkSsNode tag method password host port))

/-- Embedding of `parse_ss` (`core.py` lines 63-119, identical in
`gen_clash_from_url.py`): strip the scheme, split off the `#` tag and the
`?` query, then either base64-decode the remainder (when it has no `@`, or
no `:` before the first `@`) or percent-decode it, and parse the
`method:password@host:port` form.  Exceptions from `b64decode_any` and
`int` are not caught anywhere in the function. -/
def parse_ss (uri : Str) : Except Unit (Option Node) :=
  let rest0 := pyStrip (uri.drop 5)
  let rest1 := if rest0.contains '#' then (splitOnce rest0 '#').1 else rest0
  let tag := if rest0.contains '#' then unquote (pyStrip (splitOnce rest0 '#').2) else []
  let restq := if rest1.contains '?' then (splitOnce rest1 '?').1 else rest1
  let rest := pyStrip restq
  if !rest.contains '@' || !(splitOnce rest '@').1.contains ':' then
    match b64decode_any rest with
    | .error e => .error e
    | .ok bytes => ssFromRest2 (pyStrip (utf8DecIgnore bytes)) tag
  else
    ssFromRest2 (unquote rest) tag

/-- Embedding of the decode block of `parse_vmess` (`core.py` lines
127-130): `try` strict UTF-8, `except` lossy UTF-8.  The `except` branch
calls `b64decode_any` again, so when the base64 decode itself raised, the
second call raises identically and the exception leaves `parse_vmess`;
when only the strict text decode failed, the branch succeeds with the
lossy decoding of the same (deterministically re-computed) bytes. -/
def vmessDecoded (rest : Str) : Except Unit Str :=
  match b64decode_any rest with
  | .error e => .error e
  | .ok bytes =>
    match utf8DecStrict bytes with
    | some t => .ok t
    | none => .ok (utf8DecIgnore bytes)

/-- Embedding of the field-extraction and node-construction part of
`parse_vmess` (`core.py` lines 137-182), operating on the parsed JSON
value.  `int(...)`, `dict.get` on a non-dict and `.lower()` on a
non-string are the uncaught exception points. -/
def vmessFromConf (conf : Json) : Except Unit (Option Node) := do
  let name ← orJ (jGet conf (cs "ps")) (orJ (jGet conf (cs "remark")) (.ok (.str (cs "vmess"))))
  let server ← orJ (jGet conf (cs "add")) (orJ (jGet conf (cs "host")) (.ok (.str [])))
  let portJ ← orJ (jGet conf (cs "port")) (.ok (.num 0))
  let port ← pyIntJson portJ
  let uuid ← orJ (jGet conf (cs "id")) (.ok (.str []))
  let aidJ ← orJ (jGet conf (cs "aid")) (.ok (.num 0))
  let aid ← pyIntJson aidJ
  let net ← orJ (jGet conf (cs "net")) (.ok (.str (cs "tcp")))
  let tlsJ ← orJ (jGet conf (cs "tls")) (.ok (.str []))
  let tlsS ← pyLower tlsJ
  let tls := tlsS == cs "tls"
  let sni ← orJ (jGet conf (cs "sni"))
    (orJ (jGet conf (cs "servername")) (orJ (jGet conf (cs "host")) (.ok (.str []))))
  if !jTruthy server || port == 0 || !jTruthy uuid then
    pure none
  else do
    let cipher ← orJ (jGet conf (cs "scy")) (.ok (.str (cs "auto")))
    let base : List (Str × Json) :=
      [(cs "name", name), (cs "type", .str (cs "vmess")), (cs "server", server),
       (cs "port", .num port), (cs "uuid", uuid), (cs "alterId", .num aid),
       (cs "cipher", cipher), (cs "network", net), (cs "udp", .bool true)]
    let tlsPart : List (Str × Json) :=
      if tls then
        [(cs "tls", .bool true), (cs "skip-cert-verify", .bool true)] ++
          (if jTruthy sni then [(cs "servername", sni)] else [])
      else []
    let wsPart : List (Str × Json) ←
      if jEqStr net (cs "ws") then do
        let path ← orJ (jGet conf (cs "path")) (.ok (.str (cs "/")))
        let hostHdr ← orJ (jGet conf (cs "host")) (orJ (.ok sni) (.ok (.str [])))
        pure [(cs "ws-opts", Json.obj ([(cs "path", path)] ++
          (if jTruthy hostHdr then [(cs "headers", Json.obj [(cs "Host", hostHdr)])] else [])))]
      else pure []
    let grpcPart : List (Str × Json) ←
      if jEqStr net (cs "grpc") then do
        let svc ← orJ (jGet conf (cs "path")) (orJ (jGet conf (cs "serviceName")) (.ok (.str [])))
        pure (if jTruthy svc then [(cs "grpc-opts", Json.obj [(cs "grpc-service-name", svc)])] else [])
      else pure []
    pure (some { name := name, data := base ++ tlsPart ++ wsPart ++ grpcPart })

/-- Embedding of `parse_vmess` (`core.py` lines 122-182, identical in
`gen_clash_from_url.py`): strip the scheme, reject an empty remainder,
decode, `json.loads` under `try` (failure is a clean `None`), then extract
fields. -/
def parse_vmess (uri : Str) : Except Unit (Option Node) :=
  let rest := pyStrip (uri.drop 8)
  if rest.isEmpty then .ok none
  else
    match vmessDecoded rest with
    | .error e => .error e
    | .ok decoded =>
      match jsonLoads decoded with
      | none => .ok none
      | some conf => vmessFromConf conf

/-- Embedding of `parse_node` (`core.py` lines 185-191): dispatch on the
scheme prefix, anything else is silently no result. -/
def parse_node (line : Str) : Except Unit (Option Node) :=
  let l := pyStrip line
  if (cs "ss://").isPrefixOf l then parse_ss l
  else if (cs "vmess://").isPrefixOf l then parse_vmess l
  else .ok none

/-- Embedding of `build_clash_config` from `core.py` (lines 194-225): the
fixed top-level mapping with one manual selection group, the three-entry
rule list, and a `bind-address` key appended exactly when `allow_lan` is
set.  The output mapping is the ordered key-value list. -/
def build_clash_config (nodes : List Node) (port : Int) (allow_lan : Bool) :
    List (Str × Json) :=
  let proxies := nodes.map (fun n => Json.obj n.data)
  let names := nodes.map (fun n => n.name)
  [(cs "port", .num port),
   (cs "socks-port", .num (port + 1)),
   (cs "allow-lan", .bool allow_lan),
   (cs "mode", .str (cs "rule")),
   (cs "log-level", .str (cs "warning")),
   (cs "external-controller", .str (cs "127.0.0.1:9090")),
   (cs "proxies", .arr proxies),
   (cs "proxy-groups", .arr
     [Json.obj [(cs "name", .str (cs "MANUAL")), (cs "type", .str (cs "select")),
                (cs "proxies", .arr names)]]),
   (cs "rules", .arr [.str (cs "GEOIP,LAN,DIRECT,no-resolve"),
                      .str (cs "GEOIP,CN,DIRECT"),
                      .str (cs "MATCH,MANUAL")])] ++
  (if allow_lan then [(cs "bind-address", .str (cs "*"))] else [])

/-- Embedding of `build_clash_config` from `gen_clash_from_url.py` (lines
200-238): the variant that additionally emits a latency-test `AUTO` group
and offers `AUTO` and `DIRECT` ahead of the node names in the manual
group. -/
def build_clash_config_gui (nodes : List Node) (port : Int) (allow_lan : Bool) :
    List (Str × Json) :=
  let proxies := nodes.map (fun n => Json.obj n.data)
  let names := nodes.map (fun n => n.name)
  [(cs "port", .num port),
   (cs "socks-port", .num (port + 1)),
   (cs "allow-lan", .bool allow_lan),
   (cs "mode", .str (cs "rule")),
   (cs "log-level", .str (cs "warning")),
   (cs "external-controller", .str (cs "127.0.0.1:9090")),
   (cs "proxies", .arr proxies),
   (cs "proxy-groups", .arr
     [Json.obj [(cs "name", .str (cs "AUTO")), (cs "type", .str (cs "url-test")),
                (cs "proxies", .arr names),
                (cs "url", .str (cs "https://cp.cloudflare.com/generate_204")),
                (cs "interval", .num 300)],
      Json.obj [(cs "name", .str (cs "MANUAL")), (cs "type", .str (cs "select")),
                (cs "proxies", .arr ([.str (cs "AUTO"), .str (cs "DIRECT")] ++ names))]]),
   (cs "rules", .arr [.str (cs "GEOIP,LAN,DIRECT,no-resolve"),
                      .str (cs "GEOIP,CN,DIRECT"),
                      .str (cs "MATCH,MANUAL")])] ++
  (if allow_lan then [(cs "bind-address", .str (cs "*"))] else [])

/-- Fueled model of Python `str.splitlines()` restricted to the `\n`,
`\r\n` and `\r` line boundaries (the subscription bodies are
newline-separated). -/
def splitlinesAux : Nat → Str → List Str
  | 0, _ => []
  | _ + 1, [] => []
  | fuel + 1, s =>
    let line := s.takeWhile (fun c => c != '\n' && c != '\r')
    match s.dropWhile (fun c => c != '\n' && c != '\r') with
    | [] => [line]
    | '\r' :: '\n' :: r => line :: splitlinesAux fuel r
    | _ :: r => line :: splitlinesAux fuel r

/-- Model of `str.splitlines()` (see `splitlinesAux`). -/
def splitlines (s : Str) : List Str := splitlinesAux (s.length + 1) s

/-- Embedding of `split_subscription_lines` (`core.py` lines 53-60): decode
the whole body (a `b64decode_any` failure propagates — the call is outside
the `try`), decode to text strictly with a lossy fallback, split into
lines, strip each, and keep the non-empty ones containing `://`. -/
def split_subscription_lines (body_b64 : Str) : Except Unit (List Str) :=
  match b64decode_any body_b64 with
  | .error e => .error e
  | .ok raw =>
    let text := match utf8DecStrict raw with
      | some t => t
      | none => utf8DecIgnore raw
    let lines := (splitlines text).map pyStrip
    .ok (lines.filter (fun ln => !ln.isEmpty && decide ((cs "://") <:+: ln)))

/-- Embedding of `InternalError` (`core.py` lines 16-19): the structured
error carrying a human-readable message. -/
structure InternalError where
  message : Str

/-- Outcome of the one network GET performed by `requests` inside
`fetch_text`: either the request raised, or it produced a response with a
success flag (`r.ok`), a status code and a body text. -/
inductive FetchResult where
  | exc (msg : Str)
  | resp (ok : Bool) (status : Int) (text : Str)

/-- Embedding of `fetch_text` (`core.py` lines 41-50) over an abstract
network outcome: a request exception becomes the transport error
`请求失败：...`, a non-success status or blank body becomes the transport
error `HTTP 状态异常：...`, and otherwise the stripped body is returned. -/
def fetch_text (r : FetchResult) : Except InternalError Str :=
  match r with
  | .exc m => .error ⟨cs "请求失败：" ++ m⟩
  | .resp ok st t =>
    if !ok || (pyStrip t).isEmpty then .error ⟨cs "HTTP 状态异常：" ++ cs (toString st)⟩
    else .ok (pyStrip t)

/-- The distinct empty-result message of `generate_from_url`
(`core.py` line 242). -/
def emptyMsg : Str := cs "解析结果为空：订阅可能不是 base64 列表，或不包含 ss/vmess。"

/-- Errors leaving `generate_from_url`: a raised `InternalError`, or an
uncaught lower-level Python exception from the decode/parse machinery. -/
inductive GenError where
  | internal (e : InternalError)
  | pyexc

/-- The parse loop of `generate_from_url` (`core.py` lines 235-239): each
line in order, keeping parsed nodes, dropping `None` results; a parser
exception aborts the loop. -/
def collectNodes : List Str → Except Unit (List Node)
  | [] => .ok []
  | l :: ls =>
    match parse_node l with
    | .error e => .error e
    | .ok none => collectNodes ls
    | .ok (some n) => (fun ns => n :: ns) <$> collectNodes ls

/-- Embedding of `generate_from_url` (`core.py` lines 228-246) over an
abstract network outcome: fetch, split, parse each line discarding `None`
results, raise the empty-result `InternalError` when no node was parsed,
and otherwise build the configuration with `port=1082` and
`allow_lan=True`.  The YAML serialization of the result (an external
library call that no claim concerns) is not modelled; the node count and
the configuration document are returned. -/
def generate_from_url (r : FetchResult) : Except GenError (Nat × List (Str × Json)) :=
  match fetch_text r with
  | .error e => .error (.internal e)
  | .ok body =>
    match split_subscription_lines body with
    | .error _ => .error .pyexc
    | .ok lines =>
      match collectNodes lines with
      | .error _ => .error .pyexc
      | .ok nodes =>
        if nodes.isEmpty then .error (.internal ⟨emptyMsg⟩)
        else .ok (nodes.length, build_clash_config nodes 1082 true)

/-- Characters that make a component of an `ss://` cleartext line
well-behaved: ASCII, not whitespace, and not one of the structural
characters `#`, `?`, `%`, `@` that the parser splits or decodes on. -/
def ssSafe (c : Char) : Bool :=
  decide (c.toNat < 128) && !isPySpace c && c != '#' && c != '?' && c != '%' && c != '@'

/-- Characters that survive the URL-safe translation into the standard
base64 alphabet (characters of either alphabet, minus the padding). -/
def b64AlphaAny (c : Char) : Bool := (sextet (urlsafeTrans c)).isSome

/-! Basic lemmas about the string primitives. -/

theorem dropWhile_eq_self_of {p : Char → Bool} {s : Str}
    (h : ∀ c ∈ s, p c = false) : s.dropWhile p = s := by
  cases s with
  | nil => rfl
  | cons a t =>
    rw [List.dropWhile_cons]
    simp [h a (by simp)]

theorem pyStrip_eq_self {s : Str} (h : ∀ c ∈ s, isPySpace c = false) : pyStrip s = s := by
  unfold pyStrip
  rw [dropWhile_eq_self_of h, dropWhile_eq_self_of (by simpa using h), List.reverse_reverse]

theorem takeWhile_append_of {c : Char} {a : Str} (b : Str) (h : c ∉ a) :
    (a ++ c :: b).takeWhile (fun x => x != c) = a := by
  induction a with
  | nil => simp [List.takeWhile_cons]
  | cons x t ih =>
    have hx : x ≠ c := by intro e; exact h (by simp [e])
    simp only [List.cons_append, List.takeWhile_cons]
    simp [hx, ih (fun m => h (by simp [m]))]

theorem dropWhile_append_of {c : Char} {a : Str} (b : Str) (h : c ∉ a) :
    (a ++ c :: b).dropWhile (fun x => x != c) = c :: b := by
  induction a with
  | nil => simp [List.dropWhile_cons]
  | cons x t ih =>
    have hx : x ≠ c := by intro e; exact h (by simp [e])
    simp only [List.cons_append, List.dropWhile_cons]
    simp [hx, ih (fun m => h (by simp [m]))]

theorem splitOnce_append {c : Char} {a : Str} (b : Str) (h : c ∉ a) :
    splitOnce (a ++ c :: b) c = (a, b) := by
  unfold splitOnce
  rw [takeWhile_append_of b h, dropWhile_append_of b h]
  simp

theorem rsplitOnce_append {c : Char} {b : Str} (a : Str) (h : c ∉ b) :
    rsplitOnce (a ++ c :: b) c = (a, b) := by
  unfold rsplitOnce
  have : (a ++ c :: b).reverse = b.reverse ++ c :: a.reverse := by simp
  rw [this, splitOnce_append a.reverse (by simpa using h)]
  simp

theorem contains_iff {s : Str} {c : Char} : s.contains c = true ↔ c ∈ s := by
  simp [List.contains]

theorem contains_eq_false {s : Str} {c : Char} (h : c ∉ s) : s.contains c = false := by
  rw [Bool.eq_false_iff]
  intro hc
  exact h (contains_iff.mp hc)

theorem unquoteAux_eq_self {s : Str} (fuel : Nat) (hf : s.length ≤ fuel)
    (h : '%' ∉ s) : unquoteAux fuel s = s := by
  induction fuel generalizing s with
  | zero =>
    cases s with
    | nil => rfl
    | cons c r => simp at hf
  | succ n ih =>
    cases s with
    | nil => rfl
    | cons c r =>
      have hc : c ≠ '%' := by intro e; exact h (by simp [e])
      simp only [unquoteAux, hc, if_false]
      rw [ih (by simpa using Nat.le_of_succ_le_succ hf) (fun m => h (by simp [m]))]

theorem unquote_eq_self {s : Str} (h : '%' ∉ s) : unquote s = s :=
  unquoteAux_eq_self s.length (Nat.le_refl _) h

theorem utf8DecAux_ascii (m : UErr) (fuel : Nat) (bs : List Nat)
    (hf : bs.length ≤ fuel) (h : ∀ b ∈ bs, b < 128) :
    utf8DecAux m fuel bs = some (bs.map Char.ofNat) := by
  induction fuel generalizing bs with
  | zero =>
    cases bs with
    | nil => rfl
    | cons b r => simp at hf
  | succ n ih =>
    cases bs with
    | nil => rfl
    | cons b r =>
      have hb : b < 128 := h b (by simp)
      simp only [utf8DecAux, if_pos hb]
      rw [ih r (by simpa using Nat.le_of_succ_le_succ hf) (fun x m => h x (by simp [m]))]
      rfl

theorem utf8DecIgnore_ascii {s : Str} (h : ∀ c ∈ s, c.toNat < 128) :
    utf8DecIgnore (s.map Char.toNat) = s := by
  unfold utf8DecIgnore utf8Dec
  rw [utf8DecAux_ascii _ _ _ (by simp) (by simpa using h)]
  simp only [Option.getD, List.map_map]
  exact (List.map_congr_left (fun c _ => Char.ofNat_toNat c)).trans (List.map_id s)

theorem utf8DecStrict_ascii {s : Str} (h : ∀ c ∈ s, c.toNat < 128) :
    utf8DecStrict (s.map Char.toNat) = some s := by
  unfold utf8DecStrict utf8Dec
  rw [utf8DecAux_ascii _ _ _ (by simp) (by simpa using h)]
  simp only [List.map_map, Option.some.injEq]
  exact (List.map_congr_left (fun c _ => Char.ofNat_toNat c)).trans (List.map_id s)

theorem isDigit_toNat {c : Char} (h : c.isDigit = true) :
    48 ≤ c.toNat ∧ c.toNat ≤ 57 := by
  simpa [Char.isDigit] using h

theorem isDigit_not_space {c : Char} (h : c.isDigit = true) : isPySpace c = false := by
  obtain ⟨h1, h2⟩ := isDigit_toNat h
  by_contra hs
  rw [Bool.not_eq_false] at hs
  unfold isPySpace at hs
  simp only [Bool.or_eq_true, decide_eq_true_eq] at hs
  rcases hs with (((((e | e) | e) | e) | e) | e) <;> (subst e; exact absurd h1 (by decide))

theorem pyDigitsGo_digits (acc : Nat) (ds : Str) (h : ∀ c ∈ ds, c.isDigit = true) :
    pyDigitsGo acc ds = some (ds.foldl (fun a c => a * 10 + digitVal c) acc) := by
  induction ds generalizing acc with
  | nil => rfl
  | cons c r ih =>
    have hc : c.isDigit = true := h c (by simp)
    have hne : c ≠ '_' := by
      intro e
      obtain ⟨_, h2⟩ := isDigit_toNat hc
      rw [e] at h2
      simp at h2
    unfold pyDigitsGo
    rw [if_neg hne, if_pos hc]
    exact ih _ (fun x m => h x (by simp [m]))

theorem pyInt_digits {ds : Str} (hne : ds ≠ []) (h : ∀ c ∈ ds, c.isDigit = true) :
    pyInt ds = .ok (digitsVal ds : Int) := by
  unfold pyInt
  rw [pyStrip_eq_self (fun c m => isDigit_not_space (h c m))]
  cases ds with
  | nil => exact absurd rfl hne
  | cons c r =>
    have hc : c.isDigit = true := h c (by simp)
    obtain ⟨h1, h2⟩ := isDigit_toNat hc
    have hp : c ≠ '+' := by intro e; rw [e] at h1; simp at h1
    have hm : c ≠ '-' := by intro e; rw [e] at h1; simp at h1
    simp only [hp, hm, if_false]
    unfold pyIntCore
    simp only [hc, if_true]
    rw [pyDigitsGo_digits _ _ (fun x m => h x (by simp [m]))]
    have hz : (0 : Nat) * 10 + digitVal c = digitVal c := by omega
    simp [digitsVal, hz]

/-! Lemmas about the base64 codec. -/

theorem sextet_enc_id : ∀ k : Fin 64, sextet (urlsafeTrans (encChar k.val)) = some k.val := by
  decide

theorem sextet_enc_url : ∀ k : Fin 64,
    sextet (urlsafeTrans (stdToUrl (encChar k.val))) = some k.val := by
  decide

theorem sextet_ne_pad {c : Char} {v : Nat} (h : sextet c = some v) : c ≠ '=' := by
  intro e
  subst e
  have : sextet '=' = none := by decide
  rw [this] at h
  exact Option.noConfusion h

theorem a2bGo_step0 {c : Char} {v : Nat} (h : sextet c = some v) (t : Str) (l p : Nat) :
    a2bGo (c :: t) 0 l p = a2bGo t 1 v 0 := by
  rw [a2bGo.eq_def]
  simp only [if_neg (sextet_ne_pad h), h]

theorem a2bGo_step1 {c : Char} {v : Nat} (h : sextet c = some v) (t : Str) (l p : Nat) :
    a2bGo (c :: t) 1 l p = (fun bs => (l * 4 + v / 16) :: bs) <$> a2bGo t 2 (v % 16) 0 := by
  rw [a2bGo.eq_def]
  simp only [if_neg (sextet_ne_pad h), h]

theorem a2bGo_step2 {c : Char} {v : Nat} (h : sextet c = some v) (t : Str) (l p : Nat) :
    a2bGo (c :: t) 2 l p = (fun bs => (l * 16 + v / 4) :: bs) <$> a2bGo t 3 (v % 4) 0 := by
  rw [a2bGo.eq_def]
  simp only [if_neg (sextet_ne_pad h), h]

theorem a2bGo_step3 {c : Char} {v : Nat} (h : sextet c = some v) (t : Str) (l p : Nat) :
    a2bGo (c :: t) 3 l p = (fun bs => (l * 64 + v) :: bs) <$> a2bGo t 0 0 0 := by
  rw [a2bGo.eq_def]
  simp only [if_neg (sextet_ne_pad h), h]

theorem a2bGo_pad2_first (t : Str) (l : Nat) :
    a2bGo ('=' :: t) 2 l 0 = a2bGo t 2 l 1 := by
  conv_lhs => rw [a2bGo.eq_def]
  norm_num

theorem a2bGo_pad2_second (t : Str) (l : Nat) :
    a2bGo ('=' :: t) 2 l 1 = .ok [] := by
  conv_lhs => rw [a2bGo.eq_def]
  norm_num

theorem a2bGo_pad3 (t : Str) (l : Nat) :
    a2bGo ('=' :: t) 3 l 0 = .ok [] := by
  conv_lhs => rw [a2bGo.eq_def]
  norm_num

theorem a2bGo_quad {c0 c1 c2 c3 : Char} {v0 v1 v2 v3 : Nat}
    (h0 : sextet c0 = some v0) (h1 : sextet c1 = some v1)
    (h2 : sextet c2 = some v2) (h3 : sextet c3 = some v3) (t : Str) :
    a2bGo (c0 :: c1 :: c2 :: c3 :: t) 0 0 0 =
      (fun bs => (v0 * 4 + v1 / 16) :: (v1 % 16 * 16 + v2 / 4) :: (v2 % 4 * 64 + v3) :: bs)
        <$> a2bGo t 0 0 0 := by
  rw [a2bGo_step0 h0, a2bGo_step1 h1, a2bGo_step2 h2, a2bGo_step3 h3]
  rcases hres : a2bGo t 0 0 0 with e | bs <;> simp [Except.map]

theorem roundtrip_aux (g : Char → Char)
    (hg : ∀ k, k < 64 → sextet (g (encChar k)) = some k) :
    ∀ bs : List Nat, (∀ x ∈ bs, x < 256) →
      a2bGo ((b64encodeNoPad bs).map g ++
        List.replicate ((4 - (b64encodeNoPad bs).length % 4) % 4) '=') 0 0 0 = .ok bs
  | [], _ => by norm_num [b64encodeNoPad, a2bGo]
  | [a], h => by
    have ha : a < 256 := h a (by simp)
    have h0 : sextet (g (encChar (a / 4))) = some (a / 4) := hg _ (by omega)
    have h1 : sextet (g (encChar (a % 4 * 16))) = some (a % 4 * 16) := hg _ (by omega)
    simp only [b64encodeNoPad, List.map_cons, List.map_nil, List.length_cons,
      List.length_nil]
    norm_num [List.replicate]
    rw [a2bGo_step0 h0, a2bGo_step1 h1, a2bGo_pad2_first, a2bGo_pad2_second]
    simp only [Functor.map, Except.map]
    have : a / 4 * 4 + a % 4 * 16 / 16 = a := by omega
    rw [this]
  | [a, b], h => by
    have ha : a < 256 := h a (by simp)
    have hb : b < 256 := h b (by simp)
    have h0 : sextet (g (encChar (a / 4))) = some (a / 4) := hg _ (by omega)
    have h1 : sextet (g (encChar (a % 4 * 16 + b / 16))) = some (a % 4 * 16 + b / 16) :=
      hg _ (by omega)
    have h2 : sextet (g (encChar (b % 16 * 4))) = some (b % 16 * 4) := hg _ (by omega)
    simp only [b64encodeNoPad, List.map_cons, List.map_nil, List.length_cons,
      List.length_nil]
    norm_num [List.replicate]
    rw [a2bGo_step0 h0, a2bGo_step1 h1, a2bGo_step2 h2, a2bGo_pad3]
    simp only [Functor.map, Except.map]
    have e1 : a / 4 * 4 + (a % 4 * 16 + b / 16) / 16 = a := by omega
    have e2 : (a % 4 * 16 + b / 16) % 16 * 16 + b % 16 * 4 / 4 = b := by omega
    rw [e1, e2]
  | a :: b :: c :: rest, h => by
    have ha : a < 256 := h a (by simp)
    have hb : b < 256 := h b (by simp)
    have hc : c < 256 := h c (by simp)
    have IH := roundtrip_aux g hg rest (fun x m => h x (by simp [m]))
    have h0 : sextet (g (encChar (a / 4))) = some (a / 4) := hg _ (by omega)
    have h1 : sextet (g (encChar (a % 4 * 16 + b / 16))) = some (a % 4 * 16 + b / 16) :=
      hg _ (by omega)
    have h2 : sextet (g (encChar (b % 16 * 4 + c / 64))) = some (b % 16 * 4 + c / 64) :=
      hg _ (by omega)
    have h3 : sextet (g (encChar (c % 64))) = some (c % 64) := hg _ (by omega)
    have hmod : (4 - (4 + (b64encodeNoPad rest).length) % 4) % 4 =
        (4 - (b64encodeNoPad rest).length % 4) % 4 := by omega
    simp only [b64encodeNoPad, List.map_cons, List.length_cons, List.cons_append]
    have hlen : (b64encodeNoPad rest).length + 1 + 1 + 1 + 1 =
        4 + (b64encodeNoPad rest).length := by omega
    rw [hlen, hmod, a2bGo_quad h0 h1 h2 h3, IH]
    have e1 : a / 4 * 4 + (a % 4 * 16 + b / 16) / 16 = a := by omega
    have e2 : (a % 4 * 16 + b / 16) % 16 * 16 + (b % 16 * 4 + c / 64) / 4 = b := by omega
    have e3 : (b % 16 * 4 + c / 64) % 4 * 64 + c % 64 = c := by omega
    simp [Except.map, e1, e2, e3]

theorem b64encode_eq_noPad_pad : ∀ bs : List Nat,
    b64encode bs = b64encodeNoPad bs ++
      List.replicate ((4 - (b64encodeNoPad bs).length % 4) % 4) '='
  | [] => by norm_num [b64encode, b64encodeNoPad]
  | [a] => by norm_num [b64encode, b64encodeNoPad, List.replicate]
  | [a, b] => by norm_num [b64encode, b64encodeNoPad, List.replicate]
  | a :: b :: c :: rest => by
    have IH := b64encode_eq_noPad_pad rest
    have hmod : (4 - (4 + (b64encodeNoPad rest).length) % 4) % 4 =
        (4 - (b64encodeNoPad rest).length % 4) % 4 := by omega
    simp only [b64encode, b64encodeNoPad, List.length_cons, List.cons_append]
    have hlen : (b64encodeNoPad rest).length + 1 + 1 + 1 + 1 =
        4 + (b64encodeNoPad rest).length := by omega
    rw [hlen, hmod, IH]

theorem b64encode_chars {P : Char → Prop} (hA : ∀ k, k < 64 → P (encChar k))
    (hPad : P '=') : ∀ bs : List Nat, (∀ x ∈ bs, x < 256) → ∀ c ∈ b64encode bs, P c
  | [], _ => by simp [b64encode]
  | [a], h => by
    have ha : a < 256 := h a (by simp)
    intro c hm
    simp only [b64encode, List.mem_cons, List.not_mem_nil, or_false] at hm
    rcases hm with e | e | e | e <;> subst e
    · exact hA _ (by omega)
    · exact hA _ (by omega)
    · exact hPad
    · exact hPad
  | [a, b], h => by
    have ha : a < 256 := h a (by simp)
    have hb : b < 256 := h b (by simp)
    intro c hm
    simp only [b64encode, List.mem_cons, List.not_mem_nil, or_false] at hm
    rcases hm with e | e | e | e <;> subst e
    · exact hA _ (by omega)
    · exact hA _ (by omega)
    · exact hA _ (by omega)
    · exact hPad
  | a :: b :: c :: rest, h => by
    have ha : a < 256 := h a (by simp)
    have hb : b < 256 := h b (by simp)
    have hc : c < 256 := h c (by simp)
    intro x hm
    simp only [b64encode, List.mem_cons] at hm
    rcases hm with e | e | e | e | hm
    · exact e ▸ hA _ (by omega)
    · exact e ▸ hA _ (by omega)
    · exact e ▸ hA _ (by omega)
    · exact e ▸ hA _ (by omega)
    · exact b64encode_chars hA hPad rest (fun x m => h x (by simp [m])) x hm

theorem b64encodeNoPad_eq_nil : ∀ {bs : List Nat}, b64encodeNoPad bs = [] → bs = []
  | [], _ => rfl
  | [_], h => by simp [b64encodeNoPad] at h
  | [_, _], h => by simp [b64encodeNoPad] at h
  | _ :: _ :: _ :: _, h => by simp [b64encodeNoPad] at h

theorem urlsafeTrans_pad : urlsafeTrans '=' = '=' := by decide

theorem map_urlsafeTrans_replicate (n : Nat) :
    (List.replicate n '=').map urlsafeTrans = List.replicate n '=' := by
  rw [List.map_replicate, urlsafeTrans_pad]

theorem b64decode_any_noPad_mapped (g0 : Char → Char)
    (hg : ∀ k, k < 64 → sextet (urlsafeTrans (g0 (encChar k))) = some k)
    (hws : ∀ k, k < 64 → isPySpace (g0 (encChar k)) = false)
    (hpad : g0 '=' = '=')
    (bs : List Nat) (h : ∀ x ∈ bs, x < 256) :
    b64decode_any ((b64encodeNoPad bs).map g0) = .ok bs := by
  have hchars : ∀ c ∈ (b64encodeNoPad bs).map g0, isPySpace c = false := by
    intro c hm
    rcases List.mem_map.mp hm with ⟨d, hd, rfl⟩
    have hd' : d ∈ b64encode bs := by
      rw [b64encode_eq_noPad_pad bs]
      exact List.mem_append_left _ hd
    refine b64encode_chars (P := fun d => isPySpace (g0 d) = false) hws ?_ bs h d hd'
    show isPySpace (g0 '=') = false
    rw [hpad]
    decide
  unfold b64decode_any
  rw [pyStrip_eq_self hchars]
  by_cases hnil : (b64encodeNoPad bs).map g0 = []
  · have : bs = [] := b64encodeNoPad_eq_nil (List.map_eq_nil_iff.mp hnil)
    subst this
    rfl
  · rw [if_neg hnil]
    have hlen : ((b64encodeNoPad bs).map g0).length = (b64encodeNoPad bs).length := by simp
    rw [hlen]
    unfold urlsafe_b64decode b64decode
    rw [List.map_append, List.map_map, map_urlsafeTrans_replicate]
    rw [roundtrip_aux (urlsafeTrans ∘ g0) hg bs h]

theorem b64decode_any_padded_mapped (g0 : Char → Char)
    (hg : ∀ k, k < 64 → sextet (urlsafeTrans (g0 (encChar k))) = some k)
    (hws : ∀ k, k < 64 → isPySpace (g0 (encChar k)) = false)
    (hpad : g0 '=' = '=')
    (bs : List Nat) (h : ∀ x ∈ bs, x < 256) :
    b64decode_any ((b64encode bs).map g0) = .ok bs := by
  have hchars : ∀ c ∈ (b64encode bs).map g0, isPySpace c = false := by
    intro c hm
    rcases List.mem_map.mp hm with ⟨d, hd, rfl⟩
    refine b64encode_chars (P := fun d => isPySpace (g0 d) = false) hws ?_ bs h d hd
    show isPySpace (g0 '=') = false
    rw [hpad]
    decide
  unfold b64decode_any
  rw [pyStrip_eq_self hchars]
  by_cases hnil : (b64encode bs).map g0 = []
  · have h2 := hnil
    rw [b64encode_eq_noPad_pad bs, List.map_append] at h2
    rcases List.append_eq_nil.mp h2 with ⟨ha, _⟩
    have : bs = [] := b64encodeNoPad_eq_nil (List.map_eq_nil_iff.mp ha)
    subst this
    rfl
  · rw [if_neg hnil]
    rw [b64encode_eq_noPad_pad bs, List.map_append, List.map_replicate, hpad]
    have hlen : ((b64encodeNoPad bs).map g0 ++
        List.replicate ((4 - (b64encodeNoPad bs).length % 4) % 4) '=').length % 4 = 0 := by
      simp only [List.length_append, List.length_map, List.length_replicate]
      omega
    rw [hlen]
    have hz : (4 - (0 : Nat)) % 4 = 0 := by norm_num
    rw [hz, List.replicate_zero, List.append_nil]
    unfold urlsafe_b64decode b64decode
    rw [List.map_append, List.map_map, map_urlsafeTrans_replicate]
    rw [roundtrip_aux (urlsafeTrans ∘ g0) hg bs h]

theorem encChar_not_space : ∀ k : Fin 64, isPySpace (encChar k.val) = false ∧
    isPySpace (stdToUrl (encChar k.val)) = false := by
  decide

/-- C8: for every byte string `b`, `b64decode_any` applied to a base64
encoding of `b` returns exactly `b`, whether the encoding uses the standard
or the URL-safe alphabet, and whether or not the trailing `=` padding has
been stripped. -/
theorem b64decode_any_roundtrip (bs : List Nat) (h : ∀ x ∈ bs, x < 256) :
    b64decode_any (b64encode bs) = .ok bs ∧
    b64decode_any (b64encodeNoPad bs) = .ok bs ∧
    b64decode_any (urlsafe_b64encode bs) = .ok bs ∧
    b64decode_any ((b64encodeNoPad bs).map stdToUrl) = .ok bs := by
  have hgId : ∀ k, k < 64 → sextet (urlsafeTrans (id (encChar k))) = some k :=
    fun k hk => sextet_enc_id ⟨k, hk⟩
  have hwsId : ∀ k, k < 64 → isPySpace (id (encChar k)) = false :=
    fun k hk => (encChar_not_space ⟨k, hk⟩).1
  have hgU : ∀ k, k < 64 → sextet (urlsafeTrans (stdToUrl (encChar k))) = some k :=
    fun k hk => sextet_enc_url ⟨k, hk⟩
  have hwsU : ∀ k, k < 64 → isPySpace (stdToUrl (encChar k)) = false :=
    fun k hk => (encChar_not_space ⟨k, hk⟩).2
  refine ⟨?_, ?_, ?_, ?_⟩
  · have := b64decode_any_padded_mapped id hgId hwsId rfl bs h
    rwa [List.map_id] at this
  · have := b64decode_any_noPad_mapped id hgId hwsId rfl bs h
    rwa [List.map_id] at this
  · exact b64decode_any_padded_mapped stdToUrl hgU hwsU (by decide) bs h
  · exact b64decode_any_noPad_mapped stdToUrl hgU hwsU (by decide) bs h

/-- Witness for C8 at the concrete byte string `[104, 5, 255]`. -/
theorem b64decode_any_roundtrip_witness :
    (∀ x ∈ [104, 5, 255], x < 256) ∧
    (b64decode_any (b64encode [104, 5, 255]) = .ok [104, 5, 255] ∧
     b64decode_any (b64encodeNoPad [104, 5, 255]) = .ok [104, 5, 255] ∧
     b64decode_any (urlsafe_b64encode [104, 5, 255]) = .ok [104, 5, 255] ∧
     b64decode_any ((b64encodeNoPad [104, 5, 255]).map stdToUrl) = .ok [104, 5, 255]) :=
  ⟨by decide, b64decode_any_roundtrip [104, 5, 255] (by decide)⟩

/-! Success-shape inversion lemmas for the parsers. -/

theorem ssFromRest2_ok {r t : Str} {n : Node} (h : ssFromRest2 r t = .ok (some n)) :
    ∃ method password host port, n = mkSsNode t method password host port := by
  unfold ssFromRest2 at h
  dsimp only at h
  split at h
  · exact absurd h (by simp)
  · split at h
    · exact absurd h (by simp)
    · split at h
      · exact absurd h (by simp)
      · exact absurd h (by simp)
      · rename_i host port heq
        simp only [Except.ok.injEq, Option.some.injEq] at h
        exact ⟨_, _, host, port, h.symm⟩

theorem parse_ss_ok {line : Str} {n : Node} (h : parse_ss line = .ok (some n)) :
    ∃ method password host port tag, n = mkSsNode tag method password host port := by
  unfold parse_ss at h
  dsimp only at h
  split at h <;> (try split at h) <;> (try split at h) <;> (try split at h) <;>
    first
      | exact absurd h (by simp)
      | (rcases ssFromRest2_ok h with ⟨m, p, hs, prt, e⟩; exact ⟨m, p, hs, prt, _, e⟩)
theorem take9_append (xs ys : List (Str × Json)) (h : xs.length = 9) :
    (xs ++ ys).take 9 = xs := by
  rw [← h]
  simp

theorem vmessFromConf_ok {conf : Json} {n : Node} (h : vmessFromConf conf = .ok (some n)) :
    ∃ name server portJ port uuid aid cipher net,
      jTruthy server = true ∧ port ≠ 0 ∧ jTruthy uuid = true ∧
      orJ (jGet conf (cs "port")) (.ok (.num 0)) = .ok portJ ∧
      pyIntJson portJ = .ok port ∧
      orJ (jGet conf (cs "id")) (.ok (.str [])) = .ok uuid ∧
      n.name = name ∧
      n.data.take 9 = [(cs "name", name), (cs "type", .str (cs "vmess")), (cs "server", server),
        (cs "port", .num port), (cs "uuid", uuid), (cs "alterId", .num aid),
        (cs "cipher", cipher), (cs "network", net), (cs "udp", .bool true)] := by
  unfold vmessFromConf at h
  simp only [bind, Except.bind, pure, Except.pure] at h
  cases hname : orJ (jGet conf (cs "ps")) (orJ (jGet conf (cs "remark"))
      (.ok (.str (cs "vmess")))) with
  | error e => rw [hname] at h; exact absurd h (by simp)
  | ok name =>
  rw [hname] at h
  try dsimp only at h
  cases hserver : orJ (jGet conf (cs "add")) (orJ (jGet conf (cs "host")) (.ok (.str []))) with
  | error e => rw [hserver] at h; exact absurd h (by simp)
  | ok server =>
  rw [hserver] at h
  try dsimp only at h
  cases hportJ : orJ (jGet conf (cs "port")) (.ok (.num 0)) with
  | error e => rw [hportJ] at h; exact absurd h (by simp)
  | ok portJ =>
  rw [hportJ] at h
  try dsimp only at h
  cases hport : pyIntJson portJ with
  | error e => rw [hport] at h; exact absurd h (by simp)
  | ok port =>
  rw [hport] at h
  try dsimp only at h
  cases huuid : orJ (jGet conf (cs "id")) (.ok (.str [])) with
  | error e => rw [huuid] at h; exact absurd h (by simp)
  | ok uuid =>
  rw [huuid] at h
  try dsimp only at h
  cases haidJ : orJ (jGet conf (cs "aid")) (.ok (.num 0)) with
  | error e => rw [haidJ] at h; exact absurd h (by simp)
  | ok aidJ =>
  rw [haidJ] at h
  try dsimp only at h
  cases haid : pyIntJson aidJ with
  | error e => rw [haid] at h; exact absurd h (by simp)
  | ok aid =>
  rw [haid] at h
  try dsimp only at h
  cases hnet : orJ (jGet conf (cs "net")) (.ok (.str (cs "tcp"))) with
  | error e => rw [hnet] at h; exact absurd h (by simp)
  | ok net =>
  rw [hnet] at h
  try dsimp only at h
  cases htlsJ : orJ (jGet conf (cs "tls")) (.ok (.str [])) with
  | error e => rw [htlsJ] at h; exact absurd h (by simp)
  | ok tlsJ =>
  rw [htlsJ] at h
  try dsimp only at h
  cases htlsS : pyLower tlsJ with
  | error e => rw [htlsS] at h; exact absurd h (by simp)
  | ok tlsS =>
  rw [htlsS] at h
  try dsimp only at h
  cases hsni : orJ (jGet conf (cs "sni")) (orJ (jGet conf (cs "servername"))
      (orJ (jGet conf (cs "host")) (.ok (.str [])))) with
  | error e => rw [hsni] at h; exact absurd h (by simp)
  | ok sni =>
  rw [hsni] at h
  try dsimp only at h
  try dsimp only at h
  by_cases hg : (!jTruthy server || port == 0 || !jTruthy uuid) = true
  · rw [if_pos hg] at h
    exact absurd h (by simp)
  · rw [if_neg hg] at h
    have hg' : (!jTruthy server || port == 0 || !jTruthy uuid) = false := by
      cases hb : (!jTruthy server || port == 0 || !jTruthy uuid) with
      | true => exact absurd hb hg
      | false => rfl
    obtain ⟨h12, h3⟩ := Bool.or_eq_false_iff.mp hg'
    obtain ⟨h1, h2⟩ := Bool.or_eq_false_iff.mp h12
    have hs : jTruthy server = true := by simpa using h1
    have hp : port ≠ 0 := by simpa using h2
    have hu : jTruthy uuid = true := by simpa using h3
    cases hcipher : orJ (jGet conf (cs "scy")) (.ok (.str (cs "auto"))) with
    | error e => rw [hcipher] at h; exact absurd h (by simp)
    | ok cipher =>
    rw [hcipher] at h
    try dsimp only at h
    try dsimp only at h
    by_cases hws : jEqStr net (cs "ws") = true
    · rw [if_pos hws] at h
      cases hpath : orJ (jGet conf (cs "path")) (.ok (.str (cs "/"))) with
      | error e => rw [hpath] at h; exact absurd h (by simp)
      | ok path =>
      rw [hpath] at h
      try dsimp only at h
      cases hhdr : orJ (jGet conf (cs "host")) (orJ (.ok sni) (.ok (.str []))) with
      | error e => rw [hhdr] at h; exact absurd h (by simp)
      | ok hostHdr =>
      rw [hhdr] at h
      try dsimp only at h
      try dsimp only at h
      by_cases hgr : jEqStr net (cs "grpc") = true
      · rw [if_pos hgr] at h
        cases hsvc : orJ (jGet conf (cs "path")) (orJ (jGet conf (cs "serviceName"))
            (.ok (.str []))) with
        | error e => rw [hsvc] at h; exact absurd h (by simp)
        | ok svc =>
        rw [hsvc] at h
        try dsimp only at h
        try dsimp only at h
        simp only [Except.ok.injEq, Option.some.injEq] at h
        subst h
        refine ⟨name, server, portJ, port, uuid, aid, cipher, net, hs, hp, hu, rfl, hport,
          rfl, rfl, ?_⟩
        simp only [List.append_assoc]
        exact take9_append _ _ rfl
      · rw [if_neg hgr] at h
        try dsimp only at h
        simp only [Except.ok.injEq, Option.some.injEq] at h
        subst h
        refine ⟨name, server, portJ, port, uuid, aid, cipher, net, hs, hp, hu, rfl, hport,
          rfl, rfl, ?_⟩
        simp only [List.append_assoc]
        exact take9_append _ _ rfl
    · rw [if_neg hws] at h
      try dsimp only at h
      by_cases hgr : jEqStr net (cs "grpc") = true
      · rw [if_pos hgr] at h
        cases hsvc : orJ (jGet conf (cs "path")) (orJ (jGet conf (cs "serviceName"))
            (.ok (.str []))) with
        | error e => rw [hsvc] at h; exact absurd h (by simp)
        | ok svc =>
        rw [hsvc] at h
        try dsimp only at h
        try dsimp only at h
        simp only [Except.ok.injEq, Option.some.injEq] at h
        subst h
        refine ⟨name, server, portJ, port, uuid, aid, cipher, net, hs, hp, hu, rfl, hport,
          rfl, rfl, ?_⟩
        simp only [List.append_assoc]
        exact take9_append _ _ rfl
      · rw [if_neg hgr] at h
        try dsimp only at h
        simp only [Except.ok.injEq, Option.some.injEq] at h
        subst h
        refine ⟨name, server, portJ, port, uuid, aid, cipher, net, hs, hp, hu, rfl, hport,
          rfl, rfl, ?_⟩
        simp only [List.append_assoc]
        exact take9_append _ _ rfl

theorem parse_vmess_ok {line : Str} {n : Node} (h : parse_vmess line = .ok (some n)) :
    ∃ conf, vmessFromConf conf = .ok (some n) := by
  unfold parse_vmess at h
  dsimp only at h
  split at h
  · exact absurd h (by simp)
  · split at h
    · exact absurd h (by simp)
    · split at h
      · exact absurd h (by simp)
      · exact ⟨_, h⟩

theorem parse_ss_name_entry {line : Str} {n : Node} (h : parse_ss line = .ok (some n)) :
    dictGet n.data (cs "name") = some n.name := by
  rcases parse_ss_ok h with ⟨m, p, hs, prt, t, rfl⟩
  rfl

theorem parse_vmess_name_entry {line : Str} {n : Node} (h : parse_vmess line = .ok (some n)) :
    dictGet n.data (cs "name") = some n.name := by
  rcases parse_vmess_ok h with ⟨conf, hc⟩
  rcases vmessFromConf_ok hc with ⟨name, server, portJ, port, uuid, aid, cipher, net,
    _, _, _, _, _, _, hname, htake⟩
  have hdata : n.data = ([(cs "name", name), (cs "type", .str (cs "vmess")),
      (cs "server", server), (cs "port", .num port), (cs "uuid", uuid),
      (cs "alterId", .num aid), (cs "cipher", cipher), (cs "network", net),
      (cs "udp", .bool true)] : List (Str × Json)) ++ n.data.drop 9 := by
    rw [← htake]
    exact (List.take_append_drop 9 n.data).symm
  rw [hdata, hname]
  rfl

/-- C10: every `Node` returned by `parse_ss` or `parse_vmess` has its `name`
field equal to the `"name"` entry of its data mapping; consequently, in a
document built by `build_clash_config` (either variant) from nodes with
that property, the i-th entry of each selection group's membership list is
exactly the `"name"` of the i-th proxy mapping (shifted by the two
prepended `AUTO`/`DIRECT` entries in the GUI variant's manual group), so
every group member names a proxy present in the document. -/
theorem node_name_entry_and_groups :
    (∀ line n, parse_ss line = .ok (some n) → dictGet n.data (cs "name") = some n.name) ∧
    (∀ line n, parse_vmess line = .ok (some n) → dictGet n.data (cs "name") = some n.name) ∧
    (∀ (nodes : List Node) (port : Int) (lan : Bool),
      (∀ nd ∈ nodes, dictGet nd.data (cs "name") = some nd.name) →
      dictGet (build_clash_config nodes port lan) (cs "proxies") =
        some (.arr (nodes.map (fun nd => Json.obj nd.data))) ∧
      dictGet (build_clash_config nodes port lan) (cs "proxy-groups") =
        some (.arr [Json.obj [(cs "name", .str (cs "MANUAL")), (cs "type", .str (cs "select")),
          (cs "proxies", .arr (nodes.map (fun nd => nd.name)))]]) ∧
      ∀ i, i < nodes.length → ∃ d nm,
        (nodes.map (fun nd => Json.obj nd.data))[i]? = some (Json.obj d) ∧
        (nodes.map (fun nd => nd.name))[i]? = some nm ∧
        dictGet d (cs "name") = some nm) ∧
    (∀ (nodes : List Node) (port : Int) (lan : Bool),
      dictGet (build_clash_config_gui nodes port lan) (cs "proxy-groups") =
        some (.arr [Json.obj [(cs "name", .str (cs "AUTO")), (cs "type", .str (cs "url-test")),
            (cs "proxies", .arr (nodes.map (fun nd => nd.name))),
            (cs "url", .str (cs "https://cp.cloudflare.com/generate_204")),
            (cs "interval", .num 300)],
          Json.obj [(cs "name", .str (cs "MANUAL")), (cs "type", .str (cs "select")),
            (cs "proxies", .arr ([.str (cs "AUTO"), .str (cs "DIRECT")] ++
              nodes.map (fun nd => nd.name)))]]) ∧
      ∀ i, ([Json.str (cs "AUTO"), Json.str (cs "DIRECT")] ++
          nodes.map (fun nd => nd.name))[i + 2]? = (nodes.map (fun nd => nd.name))[i]?) := by
  refine ⟨fun line n h => parse_ss_name_entry h, fun line n h => parse_vmess_name_entry h,
    ?_, ?_⟩
  · intro nodes port lan hn
    refine ⟨rfl, rfl, ?_⟩
    intro i hi
    have hnd : nodes[i]? = some nodes[i] := List.getElem?_eq_getElem hi
    refine ⟨nodes[i].data, nodes[i].name, ?_, ?_, hn nodes[i] (List.getElem_mem hi)⟩
    · rw [List.getElem?_map, hnd]
      rfl
    · rw [List.getElem?_map, hnd]
      rfl
  · intro nodes port lan
    refine ⟨rfl, fun i => ?_⟩
    simp [List.cons_append, List.getElem?_cons_succ]

/-- Witness for C10 at a concrete one-node list and a concrete parsed line. -/
theorem node_name_entry_and_groups_witness :
    (parse_ss (cs "ss://aes:pw@1.2.3.4:443") =
        .ok (some ⟨Json.str (cs "ss@1.2.3.4:443"),
          [(cs "name", Json.str (cs "ss@1.2.3.4:443")), (cs "type", Json.str (cs "ss")),
           (cs "server", Json.str (cs "1.2.3.4")), (cs "port", Json.num 443),
           (cs "cipher", Json.str (cs "aes")), (cs "password", Json.str (cs "pw")),
           (cs "udp", Json.bool true)]⟩) →
      dictGet [(cs "name", Json.str (cs "ss@1.2.3.4:443")), (cs "type", Json.str (cs "ss")),
           (cs "server", Json.str (cs "1.2.3.4")), (cs "port", Json.num 443),
           (cs "cipher", Json.str (cs "aes")), (cs "password", Json.str (cs "pw")),
           (cs "udp", Json.bool true)] (cs "name") = some (Json.str (cs "ss@1.2.3.4:443"))) ∧
    (dictGet (build_clash_config [⟨Json.str (cs "A"), [(cs "name", Json.str (cs "A"))]⟩]
        1082 true) (cs "proxies") =
      some (.arr [Json.obj [(cs "name", Json.str (cs "A"))]]) ∧
     dictGet (build_clash_config [⟨Json.str (cs "A"), [(cs "name", Json.str (cs "A"))]⟩]
        1082 true) (cs "proxy-groups") =
      some (.arr [Json.obj [(cs "name", .str (cs "MANUAL")), (cs "type", .str (cs "select")),
        (cs "proxies", .arr [Json.str (cs "A")])]]) ∧
     ∀ i, i < 1 → ∃ d nm,
       [Json.obj [(cs "name", Json.str (cs "A"))]][i]? = some (Json.obj d) ∧
       [Json.str (cs "A")][i]? = some nm ∧ dictGet d (cs "name") = some nm) :=
  ⟨fun h => node_name_entry_and_groups.1 (cs "ss://aes:pw@1.2.3.4:443") _ h,
   node_name_entry_and_groups.2.2.1 [⟨Json.str (cs "A"), [(cs "name", Json.str (cs "A"))]⟩]
     1082 true (fun nd hm => by
       rw [List.mem_singleton.mp hm]
       rfl)⟩

/-- C3: `build_clash_config` (both variants) is a pure function of its
arguments that preserves node order with no sorting or deduplication: the
`proxies` value is exactly the mapped node data in parse order and the
group membership lists are exactly the node names in parse order (the GUI
variant's manual group prepends `AUTO` and `DIRECT`); `socks-port` is
`port + 1`; the rule list is exactly the three fixed entries in order; and
a `bind-address` key is present exactly when `allow_lan` is true.  At the
concrete input `[Proxy(name="A"), Proxy(name="B")]`, `port=1082`,
`allow_lan=true` this yields `socks-port=1083`, `allow-lan=true`, a
`bind-address` key, and group lists `["A","B"]` and
`["AUTO","DIRECT","A","B"]` respectively. -/
theorem build_clash_config_properties :
    (∀ (nodes : List Node) (port : Int) (lan : Bool),
      dictGet (build_clash_config nodes port lan) (cs "socks-port") = some (.num (port + 1)) ∧
      dictGet (build_clash_config nodes port lan) (cs "rules") =
        some (.arr [.str (cs "GEOIP,LAN,DIRECT,no-resolve"), .str (cs "GEOIP,CN,DIRECT"),
          .str (cs "MATCH,MANUAL")]) ∧
      dictGet (build_clash_config nodes port lan) (cs "proxies") =
        some (.arr (nodes.map (fun nd => Json.obj nd.data))) ∧
      dictGet (build_clash_config nodes port lan) (cs "proxy-groups") =
        some (.arr [Json.obj [(cs "name", .str (cs "MANUAL")), (cs "type", .str (cs "select")),
          (cs "proxies", .arr (nodes.map (fun nd => nd.name)))]]) ∧
      dictGet (build_clash_config nodes port lan) (cs "bind-address") =
        (if lan then some (.str (cs "*")) else none) ∧
      dictGet (build_clash_config_gui nodes port lan) (cs "socks-port") =
        some (.num (port + 1)) ∧
      dictGet (build_clash_config_gui nodes port lan) (cs "rules") =
        some (.arr [.str (cs "GEOIP,LAN,DIRECT,no-resolve"), .str (cs "GEOIP,CN,DIRECT"),
          .str (cs "MATCH,MANUAL")]) ∧
      dictGet (build_clash_config_gui nodes port lan) (cs "proxies") =
        some (.arr (nodes.map (fun nd => Json.obj nd.data))) ∧
      dictGet (build_clash_config_gui nodes port lan) (cs "proxy-groups") =
        some (.arr [Json.obj [(cs "name", .str (cs "AUTO")), (cs "type", .str (cs "url-test")),
            (cs "proxies", .arr (nodes.map (fun nd => nd.name))),
            (cs "url", .str (cs "https://cp.cloudflare.com/generate_204")),
            (cs "interval", .num 300)],
          Json.obj [(cs "name", .str (cs "MANUAL")), (cs "type", .str (cs "select")),
            (cs "proxies", .arr ([.str (cs "AUTO"), .str (cs "DIRECT")] ++
              nodes.map (fun nd => nd.name)))]]) ∧
      dictGet (build_clash_config_gui nodes port lan) (cs "bind-address") =
        (if lan then some (.str (cs "*")) else none)) ∧
    (dictGet (build_clash_config [⟨Json.str (cs "A"), [(cs "name", Json.str (cs "A"))]⟩,
        ⟨Json.str (cs "B"), [(cs "name", Json.str (cs "B"))]⟩] 1082 true) (cs "socks-port") =
      some (.num 1083) ∧
     dictGet (build_clash_config [⟨Json.str (cs "A"), [(cs "name", Json.str (cs "A"))]⟩,
        ⟨Json.str (cs "B"), [(cs "name", Json.str (cs "B"))]⟩] 1082 true) (cs "allow-lan") =
      some (.bool true) ∧
     dictGet (build_clash_config [⟨Json.str (cs "A"), [(cs "name", Json.str (cs "A"))]⟩,
        ⟨Json.str (cs "B"), [(cs "name", Json.str (cs "B"))]⟩] 1082 true) (cs "bind-address") =
      some (.str (cs "*")) ∧
     dictGet (build_clash_config [⟨Json.str (cs "A"), [(cs "name", Json.str (cs "A"))]⟩,
        ⟨Json.str (cs "B"), [(cs "name", Json.str (cs "B"))]⟩] 1082 true) (cs "proxy-groups") =
      some (.arr [Json.obj [(cs "name", .str (cs "MANUAL")), (cs "type", .str (cs "select")),
        (cs "proxies", .arr [Json.str (cs "A"), Json.str (cs "B")])]]) ∧
     dictGet (build_clash_config_gui [⟨Json.str (cs "A"), [(cs "name", Json.str (cs "A"))]⟩,
        ⟨Json.str (cs "B"), [(cs "name", Json.str (cs "B"))]⟩] 1082 true) (cs "proxy-groups") =
      some (.arr [Json.obj [(cs "name", .str (cs "AUTO")), (cs "type", .str (cs "url-test")),
          (cs "proxies", .arr [Json.str (cs "A"), Json.str (cs "B")]),
          (cs "url", .str (cs "https://cp.cloudflare.com/generate_204")),
          (cs "interval", .num 300)],
        Json.obj [(cs "name", .str (cs "MANUAL")), (cs "type", .str (cs "select")),
          (cs "proxies", .arr [Json.str (cs "AUTO"), Json.str (cs "DIRECT"),
            Json.str (cs "A"), Json.str (cs "B")])]])) := by
  constructor
  · intro nodes port lan
    refine ⟨rfl, rfl, rfl, rfl, ?_, rfl, rfl, rfl, rfl, ?_⟩ <;> cases lan <;> rfl
  · exact ⟨rfl, rfl, rfl, rfl, rfl⟩

/-- C1 (counterexample): the claim that no exception crosses the parser
boundary is false — a non-numeric port in an ss host-port raises an
uncaught `ValueError` out of `parse_ss` instead of returning a result. -/
theorem parse_ss_raises_on_nonnumeric_port :
    parse_ss (cs "ss://aes:pw@host:12ab") = .error () := rfl

/-- C1 (amended): JSON parse failures are caught inside `parse_vmess` and
converted to a clean no-result return, but integer parse failures (a
non-numeric ss port, a non-numeric vmess `port`) and base64 decode
failures escape both parsers as exceptions. -/
theorem parser_exception_boundary :
    (∀ line d, pyStrip (line.drop 8) ≠ [] →
      vmessDecoded (pyStrip (line.drop 8)) = .ok d → jsonLoads d = none →
      parse_vmess line = .ok none) ∧
    parse_ss (cs "ss://m:p@h:4x") = .error () ∧
    parse_vmess (cs "vmess://eyJhZGQiOiJoIiwicG9ydCI6IngiLCJpZCI6InUifQ==") = .error () ∧
    parse_ss (cs "ss://A") = .error () ∧
    parse_vmess (cs "vmess://A") = .error () := by
  refine ⟨?_, rfl, rfl, rfl, rfl⟩
  intro line d hne hdec hjson
  unfold parse_vmess
  rw [if_neg (by simpa using hne), hdec]
  dsimp only
  rw [hjson]

/-- Witness for the amended C1 at a line whose payload decodes but is not
JSON. -/
theorem parser_exception_boundary_witness :
    (pyStrip ((cs "vmess://aGVsbG8").drop 8) ≠ [] ∧
     vmessDecoded (pyStrip ((cs "vmess://aGVsbG8").drop 8)) = .ok (cs "hello") ∧
     jsonLoads (cs "hello") = none) ∧
    parse_vmess (cs "vmess://aGVsbG8") = .ok none :=
  ⟨⟨by decide, rfl, rfl⟩,
   parser_exception_boundary.1 (cs "vmess://aGVsbG8") (cs "hello") (by decide) rfl rfl⟩

/-- C6 (counterexample): a host-port starting with `[` but missing the
closing `]` does not yield "no descriptor" — the parser falls through to
the last-colon split and returns a descriptor whose server still contains
the bracket. -/
theorem parse_ss_missing_bracket_returns_descriptor :
    parse_ss (cs "ss://aes:pw@[::1:8443") =
      .ok (some ⟨Json.str (cs "ss@[::1:8443"),
        [(cs "name", Json.str (cs "ss@[::1:8443")), (cs "type", Json.str (cs "ss")),
         (cs "server", Json.str (cs "[::1")), (cs "port", Json.num 8443),
         (cs "cipher", Json.str (cs "aes")), (cs "password", Json.str (cs "pw")),
         (cs "udp", Json.bool true)]⟩) := rfl

/-- C6 (amended): the bracketed form `[::1]:8443` parses to host `::1` and
port `8443`; a bracket form whose text after `]` does not begin with `:`
yields no descriptor; a host-port starting with `[` but missing `]` is
instead treated by the last-colon rule (no descriptor only when no colon
follows, as in `[abc`). -/
theorem parse_ss_ipv6_handling :
    parse_ss (cs "ss://aes:pw@[::1]:8443") =
      .ok (some ⟨Json.str (cs "ss@::1:8443"),
        [(cs "name", Json.str (cs "ss@::1:8443")), (cs "type", Json.str (cs "ss")),
         (cs "server", Json.str (cs "::1")), (cs "port", Json.num 8443),
         (cs "cipher", Json.str (cs "aes")), (cs "password", Json.str (cs "pw")),
         (cs "udp", Json.bool true)]⟩) ∧
    parse_ss (cs "ss://aes:pw@[::1]8443") = .ok none ∧
    parse_ss (cs "ss://aes:pw@[abc") = .ok none :=
  ⟨rfl, rfl, rfl⟩

/-- C9 (counterexample): `parse_ss` can return a descriptor whose `cipher`
field is the empty string (an empty method in the authority), so "server,
cipher and password are non-empty" fails on the code. -/
theorem parse_ss_empty_cipher_descriptor :
    parse_ss (cs "ss://:pw@h:1") =
      .ok (some ⟨Json.str (cs "ss@h:1"),
        [(cs "name", Json.str (cs "ss@h:1")), (cs "type", Json.str (cs "ss")),
         (cs "server", Json.str (cs "h")), (cs "port", Json.num 1),
         (cs "cipher", Json.str []), (cs "password", Json.str (cs "pw")),
         (cs "udp", Json.bool true)]⟩) := rfl

/-- C9 (amended): neither parser returns a partially-filled descriptor in
the structural sense — an ss descriptor always carries all seven keys
(but its server, cipher and password strings may be empty), and a vmess
descriptor's server, port and uuid are checked: server and uuid are
non-falsy and the port is non-zero. -/
theorem descriptor_population :
    (∀ line n, parse_ss line = .ok (some n) →
      n.data.map Prod.fst = [cs "name", cs "type", cs "server", cs "port",
        cs "cipher", cs "password", cs "udp"]) ∧
    (∀ line n, parse_vmess line = .ok (some n) →
      ∃ server port uuid, dictGet n.data (cs "server") = some server ∧
        jTruthy server = true ∧
        dictGet n.data (cs "port") = some (.num port) ∧ port ≠ 0 ∧
        dictGet n.data (cs "uuid") = some uuid ∧ jTruthy uuid = true) := by
  constructor
  · intro line n h
    rcases parse_ss_ok h with ⟨m, p, hs, prt, t, rfl⟩
    rfl
  · intro line n h
    rcases parse_vmess_ok h with ⟨conf, hc⟩
    rcases vmessFromConf_ok hc with ⟨name, server, portJ, port, uuid, aid, cipher, net,
      hsrv, hprt, huu, _, _, _, _, htake⟩
    have hdata : n.data = ([(cs "name", name), (cs "type", .str (cs "vmess")),
        (cs "server", server), (cs "port", .num port), (cs "uuid", uuid),
        (cs "alterId", .num aid), (cs "cipher", cipher), (cs "network", net),
        (cs "udp", .bool true)] : List (Str × Json)) ++ n.data.drop 9 := by
      rw [← htake]
      exact (List.take_append_drop 9 n.data).symm
    rw [hdata]
    exact ⟨server, port, uuid, rfl, hsrv, rfl, hprt, rfl, huu⟩

/-- Witness for the amended C9 at concrete ss and vmess lines. -/
theorem descriptor_population_witness :
    ([(cs "name", Json.str (cs "ss@1.2.3.4:443")), (cs "type", Json.str (cs "ss")),
      (cs "server", Json.str (cs "1.2.3.4")), (cs "port", Json.num 443),
      (cs "cipher", Json.str (cs "aes")), (cs "password", Json.str (cs "pw")),
      (cs "udp", Json.bool true)].map Prod.fst =
        [cs "name", cs "type", cs "server", cs "port", cs "cipher",
         cs "password", cs "udp"]) ∧
    (∃ server port uuid,
      dictGet [(cs "name", Json.str (cs "vmess")), (cs "type", Json.str (cs "vmess")),
        (cs "server", Json.str (cs "h")), (cs "port", Json.num 443),
        (cs "uuid", Json.str (cs "u")), (cs "alterId", Json.num 0),
        (cs "cipher", Json.str (cs "auto")), (cs "network", Json.str (cs "tcp")),
        (cs "udp", Json.bool true)] (cs "server") = some server ∧
      jTruthy server = true ∧
      dictGet [(cs "name", Json.str (cs "vmess")), (cs "type", Json.str (cs "vmess")),
        (cs "server", Json.str (cs "h")), (cs "port", Json.num 443),
        (cs "uuid", Json.str (cs "u")), (cs "alterId", Json.num 0),
        (cs "cipher", Json.str (cs "auto")), (cs "network", Json.str (cs "tcp")),
        (cs "udp", Json.bool true)] (cs "port") = some (.num port) ∧ port ≠ 0 ∧
      dictGet [(cs "name", Json.str (cs "vmess")), (cs "type", Json.str (cs "vmess")),
        (cs "server", Json.str (cs "h")), (cs "port", Json.num 443),
        (cs "uuid", Json.str (cs "u")), (cs "alterId", Json.num 0),
        (cs "cipher", Json.str (cs "auto")), (cs "network", Json.str (cs "tcp")),
        (cs "udp", Json.bool true)] (cs "uuid") = some uuid ∧ jTruthy uuid = true) :=
  ⟨descriptor_population.1 (cs "ss://aes:pw@1.2.3.4:443") _ rfl,
   descriptor_population.2 (cs "vmess://eyJhZGQiOiJoIiwicG9ydCI6NDQzLCJpZCI6InUifQ==") _ rfl⟩

theorem collectNodes_none {lines : List Str} (h : ∀ l ∈ lines, parse_node l = .ok none) :
    collectNodes lines = .ok [] := by
  induction lines with
  | nil => rfl
  | cons l ls ih =>
    unfold collectNodes
    rw [h l (by simp), ih (fun x m => h x (by simp [m]))]

/-- C4: when the fetch succeeds but zero descriptors are extracted from the
body (an empty body, or a body all of whose candidate lines yield no
descriptor), `generate_from_url` fails with the distinct empty-result
`InternalError` and never returns a document with zero proxies; the
empty-result message is distinct from every transport-error message that
`fetch_text` can raise. -/
theorem generate_from_url_empty_result :
    (∀ (r : FetchResult) (body : Str) (lines : List Str),
      fetch_text r = .ok body → split_subscription_lines body = .ok lines →
      (∀ l ∈ lines, parse_node l = .ok none) →
      generate_from_url r = .error (.internal ⟨emptyMsg⟩)) ∧
    (∀ (r : FetchResult) (k : Nat) (cfg : List (Str × Json)),
      generate_from_url r = .ok (k, cfg) → 0 < k ∧
      ∃ ps, dictGet cfg (cs "proxies") = some (.arr ps) ∧ ps ≠ []) ∧
    (∀ (r : FetchResult) (e : InternalError),
      fetch_text r = .error e → e.message ≠ emptyMsg) := by
  refine ⟨?_, ?_, ?_⟩
  · intro r body lines h1 h2 h3
    unfold generate_from_url
    rw [h1]
    dsimp only
    rw [h2]
    dsimp only
    rw [collectNodes_none h3]
    rfl
  · intro r k cfg h
    unfold generate_from_url at h
    split at h
    · exact absurd h (by simp)
    · split at h
      · exact absurd h (by simp)
      · split at h
        · exact absurd h (by simp)
        · rename_i nodes heq
          split at h
          · exact absurd h (by simp)
          · rename_i hne
            simp only [Except.ok.injEq, Prod.mk.injEq] at h
            obtain ⟨hk, hcfg⟩ := h
            have hnodes : nodes ≠ [] := by
              intro e
              rw [e] at hne
              exact hne rfl
            constructor
            · rw [← hk]
              exact List.length_pos.mpr hnodes
            · refine ⟨nodes.map (fun nd => Json.obj nd.data), ?_, ?_⟩
              · rw [← hcfg]
                rfl
              · simpa using hnodes
  · intro r e h heq
    cases r with
    | exc m =>
      unfold fetch_text at h
      simp only [Except.error.injEq] at h
      rw [← h] at heq
      have h0 := congrArg List.head? heq
      simp [cs, emptyMsg] at h0
    | resp ok st t =>
      unfold fetch_text at h
      dsimp only at h
      by_cases hc : (!ok || (pyStrip t).isEmpty) = true
      · rw [if_pos hc] at h
        simp only [Except.error.injEq] at h
        rw [← h] at heq
        have h0 := congrArg List.head? heq
        simp [cs, emptyMsg] at h0
      · rw [if_neg hc] at h
        exact absurd h (by simp)

/-- Witness for C4: a successful fetch whose body decodes to a single line
with an unsupported scheme yields the empty-result error. -/
theorem generate_from_url_empty_result_witness :
    (fetch_text (.resp true 200 (cs "aGVsbG86Ly94")) = .ok (cs "aGVsbG86Ly94") ∧
     split_subscription_lines (cs "aGVsbG86Ly94") = .ok [cs "hello://x"] ∧
     (∀ l ∈ [cs "hello://x"], parse_node l = .ok none)) ∧
    generate_from_url (.resp true 200 (cs "aGVsbG86Ly94")) =
      .error (.internal ⟨emptyMsg⟩) :=
  ⟨⟨rfl, rfl, fun l hm => by rw [List.mem_singleton.mp hm]; rfl⟩,
   generate_from_url_empty_result.1 (.resp true 200 (cs "aGVsbG86Ly94"))
     (cs "aGVsbG86Ly94") [cs "hello://x"] rfl rfl
     (fun l hm => by rw [List.mem_singleton.mp hm]; rfl)⟩

/-- C5: a vmess line whose decoded JSON lacks `id`, or lacks `port`, or has
`port` equal to 0, never yields a descriptor; and a vmess line whose
decoded JSON has exactly the minimal fields `add`, `port`, `id` (non-empty
server and uuid strings, non-zero port) yields a descriptor with
`cipher="auto"`, `network="tcp"` and `alterId=0`. -/
theorem parse_vmess_required_fields :
    (∀ (line d : Str) (kvs : List (Str × Json)) (n : Node),
      vmessDecoded (pyStrip (line.drop 8)) = .ok d →
      jsonLoads d = some (.obj kvs) → jLookup kvs (cs "id") = none →
      parse_vmess line ≠ .ok (some n)) ∧
    (∀ (line d : Str) (kvs : List (Str × Json)) (n : Node),
      vmessDecoded (pyStrip (line.drop 8)) = .ok d →
      jsonLoads d = some (.obj kvs) →
      (jLookup kvs (cs "port") = none ∨ jLookup kvs (cs "port") = some (.num 0)) →
      parse_vmess line ≠ .ok (some n)) ∧
    (∀ (line d : Str) (a u : Str) (p : Int),
      pyStrip (line.drop 8) ≠ [] →
      vmessDecoded (pyStrip (line.drop 8)) = .ok d →
      jsonLoads d = some (.obj [(cs "add", .str a), (cs "port", .num p), (cs "id", .str u)]) →
      a ≠ [] → p ≠ 0 → u ≠ [] →
      parse_vmess line = .ok (some ⟨Json.str (cs "vmess"),
        [(cs "name", .str (cs "vmess")), (cs "type", .str (cs "vmess")),
         (cs "server", .str a), (cs "port", .num p), (cs "uuid", .str u),
         (cs "alterId", .num 0), (cs "cipher", .str (cs "auto")),
         (cs "network", .str (cs "tcp")), (cs "udp", .bool true)]⟩)) := by
  refine ⟨?_, ?_, ?_⟩
  · intro line d kvs n hdec hjson hlack hcontra
    unfold parse_vmess at hcontra
    dsimp only at hcontra
    split at hcontra
    · exact absurd hcontra (by simp)
    · rw [hdec] at hcontra
      dsimp only at hcontra
      rw [hjson] at hcontra
      rcases vmessFromConf_ok hcontra with ⟨name, server, portJ, port, uuid, aid, cipher,
        net, _, _, huu, _, _, hid, _, _⟩
      have hnull : orJ (jGet (.obj kvs) (cs "id")) (.ok (.str [])) = .ok (.str []) := by
        unfold jGet orJ
        dsimp only
        rw [hlack]
        rfl
      rw [hnull] at hid
      simp only [Except.ok.injEq] at hid
      rw [← hid] at huu
      simp [jTruthy] at huu
  · intro line d kvs n hdec hjson hlack hcontra
    unfold parse_vmess at hcontra
    dsimp only at hcontra
    split at hcontra
    · exact absurd hcontra (by simp)
    · rw [hdec] at hcontra
      dsimp only at hcontra
      rw [hjson] at hcontra
      rcases vmessFromConf_ok hcontra with ⟨name, server, portJ, port, uuid, aid, cipher,
        net, _, hprt, _, hpj, hpi, _, _, _⟩
      have hz : orJ (jGet (.obj kvs) (cs "port")) (.ok (.num 0)) = .ok (.num 0) := by
        unfold jGet orJ
        dsimp only
        rcases hlack with hl | hl <;> rw [hl] <;> rfl
      rw [hz] at hpj
      simp only [Except.ok.injEq] at hpj
      rw [← hpj] at hpi
      simp only [pyIntJson, Except.ok.injEq] at hpi
      exact hprt (by omega)
  · intro line d a u p hne hdec hjson ha hp hu
    have ha' : jTruthy (Json.str a) = true := by
      cases a with
      | nil => exact absurd rfl ha
      | cons x xs => rfl
    have hu' : jTruthy (Json.str u) = true := by
      cases u with
      | nil => exact absurd rfl hu
      | cons x xs => rfl
    have hpb : (p == 0) = false := by simpa using hp
    have hpt : jTruthy (Json.num p) = true := by
      show (p != 0) = true
      simp [bne, hpb]
    unfold parse_vmess
    dsimp only
    rw [if_neg (by simpa using hne), hdec]
    dsimp only
    rw [hjson]
    unfold vmessFromConf
    simp only [bind, Except.bind, pure, Except.pure]
    rw [show orJ (jGet (Json.obj [(cs "add", .str a), (cs "port", .num p), (cs "id", .str u)])
        (cs "ps")) (orJ (jGet (Json.obj [(cs "add", .str a), (cs "port", .num p),
        (cs "id", .str u)]) (cs "remark")) (.ok (.str (cs "vmess")))) =
        .ok (.str (cs "vmess")) from rfl]
    dsimp only
    have h2 : orJ (jGet (Json.obj [(cs "add", .str a), (cs "port", .num p), (cs "id", .str u)])
        (cs "add")) (orJ (jGet (Json.obj [(cs "add", .str a), (cs "port", .num p),
        (cs "id", .str u)]) (cs "host")) (.ok (.str []))) = .ok (.str a) := by
      rw [show jGet (Json.obj [(cs "add", .str a), (cs "port", .num p), (cs "id", .str u)])
        (cs "add") = .ok (Json.str a) from rfl]
      unfold orJ
      dsimp only
      rw [ha']
      rfl
    rw [h2]
    dsimp only
    have h3 : orJ (jGet (Json.obj [(cs "add", .str a), (cs "port", .num p), (cs "id", .str u)])
        (cs "port")) (.ok (.num 0)) = .ok (.num p) := by
      rw [show jGet (Json.obj [(cs "add", .str a), (cs "port", .num p), (cs "id", .str u)])
        (cs "port") = .ok (Json.num p) from rfl]
      unfold orJ
      dsimp only
      rw [hpt]
      rfl
    rw [h3]
    dsimp only [pyIntJson]
    have h5 : orJ (jGet (Json.obj [(cs "add", .str a), (cs "port", .num p), (cs "id", .str u)])
        (cs "id")) (.ok (.str [])) = .ok (.str u) := by
      rw [show jGet (Json.obj [(cs "add", .str a), (cs "port", .num p), (cs "id", .str u)])
        (cs "id") = .ok (Json.str u) from rfl]
      unfold orJ
      dsimp only
      rw [hu']
      rfl
    rw [h5]
    dsimp only
    rw [show orJ (jGet (Json.obj [(cs "add", .str a), (cs "port", .num p), (cs "id", .str u)])
        (cs "aid")) (.ok (.num 0)) = .ok (.num 0) from rfl]
    dsimp only [pyIntJson]
    rw [show orJ (jGet (Json.obj [(cs "add", .str a), (cs "port", .num p), (cs "id", .str u)])
        (cs "net")) (.ok (.str (cs "tcp"))) = .ok (.str (cs "tcp")) from rfl]
    dsimp only
    rw [show orJ (jGet (Json.obj [(cs "add", .str a), (cs "port", .num p), (cs "id", .str u)])
        (cs "tls")) (.ok (.str [])) = .ok (.str []) from rfl]
    dsimp only [pyLower]
    rw [show orJ (jGet (Json.obj [(cs "add", .str a), (cs "port", .num p), (cs "id", .str u)])
        (cs "sni")) (orJ (jGet (Json.obj [(cs "add", .str a), (cs "port", .num p),
        (cs "id", .str u)]) (cs "servername")) (orJ (jGet (Json.obj [(cs "add", .str a),
        (cs "port", .num p), (cs "id", .str u)]) (cs "host")) (.ok (.str [])))) =
        .ok (.str []) from rfl]
    dsimp only
    rw [if_neg (by simp [ha', hu', hpb])]
    rw [show orJ (jGet (Json.obj [(cs "add", .str a), (cs "port", .num p), (cs "id", .str u)])
        (cs "scy")) (.ok (.str (cs "auto"))) = .ok (.str (cs "auto")) from rfl]
    dsimp only
    rw [if_neg (by decide)]
    try dsimp only
    rw [if_neg (by decide)]
    try dsimp only
    rfl

/-- Witness for C5: a line lacking `id`, a line with `port` 0, and a
minimal valid line, all concrete. -/
theorem parse_vmess_required_fields_witness :
    parse_vmess (cs "vmess://eyJhZGQiOiJoIiwicG9ydCI6MX0=") ≠
      .ok (some ⟨Json.null, []⟩) ∧
    parse_vmess (cs "vmess://eyJhZGQiOiJoIiwicG9ydCI6MCwiaWQiOiJ1In0=") ≠
      .ok (some ⟨Json.null, []⟩) ∧
    parse_vmess (cs "vmess://eyJhZGQiOiJoIiwicG9ydCI6NDQzLCJpZCI6InUifQ==") =
      .ok (some ⟨Json.str (cs "vmess"),
        [(cs "name", .str (cs "vmess")), (cs "type", .str (cs "vmess")),
         (cs "server", .str (cs "h")), (cs "port", .num 443), (cs "uuid", .str (cs "u")),
         (cs "alterId", .num 0), (cs "cipher", .str (cs "auto")),
         (cs "network", .str (cs "tcp")), (cs "udp", .bool true)]⟩) :=
  ⟨parse_vmess_required_fields.1 (cs "vmess://eyJhZGQiOiJoIiwicG9ydCI6MX0=")
     (cs "\x7b\x22add\x22:\x22h\x22,\x22port\x22:1\x7d")
     [(cs "add", .str (cs "h")), (cs "port", .num 1)] ⟨Json.null, []⟩ rfl rfl rfl,
   parse_vmess_required_fields.2.1 (cs "vmess://eyJhZGQiOiJoIiwicG9ydCI6MCwiaWQiOiJ1In0=")
     (cs "\x7b\x22add\x22:\x22h\x22,\x22port\x22:0,\x22id\x22:\x22u\x22\x7d")
     [(cs "add", .str (cs "h")), (cs "port", .num 0), (cs "id", .str (cs "u"))]
     ⟨Json.null, []⟩ rfl rfl (Or.inr rfl),
   parse_vmess_required_fields.2.2 (cs "vmess://eyJhZGQiOiJoIiwicG9ydCI6NDQzLCJpZCI6InUifQ==")
     (cs "\x7b\x22add\x22:\x22h\x22,\x22port\x22:443,\x22id\x22:\x22u\x22\x7d")
     (cs "h") (cs "u") 443 (by decide) rfl rfl (by decide) (by decide) (by decide)⟩

theorem b64AlphaAny_not_space {c : Char} (h : b64AlphaAny c = true) :
    isPySpace c = false := by
  by_contra hs
  rw [Bool.not_eq_false] at hs
  unfold isPySpace at hs
  simp only [Bool.or_eq_true, decide_eq_true_eq] at hs
  rcases hs with (((((e | e) | e) | e) | e) | e) <;>
    (subst e; exact absurd h (by decide))

theorem a2bGo_valid_pad : ∀ (n : Nat) (chs : Str), chs.length ≤ n →
    (∀ c ∈ chs, (sextet c).isSome = true) → chs.length % 4 ≠ 1 →
    ∃ bs, a2bGo (chs ++ List.replicate ((4 - chs.length % 4) % 4) '=') 0 0 0 = .ok bs := by
  intro n
  induction n with
  | zero =>
    intro chs hn _ _
    have : chs = [] := List.eq_nil_of_length_eq_zero (Nat.le_zero.mp hn)
    subst this
    exact ⟨[], rfl⟩
  | succ m ih =>
    intro chs hn hval hmod
    match chs with
    | [] => exact ⟨[], rfl⟩
    | [c0] => simp at hmod
    | [c0, c1] =>
      rcases Option.isSome_iff_exists.mp (hval c0 (by simp)) with ⟨v0, h0⟩
      rcases Option.isSome_iff_exists.mp (hval c1 (by simp)) with ⟨v1, h1⟩
      refine ⟨[v0 * 4 + v1 / 16], ?_⟩
      have hrep : (4 - ([c0, c1] : Str).length % 4) % 4 = 2 := by simp
      rw [hrep]
      show a2bGo (c0 :: c1 :: '=' :: '=' :: []) 0 0 0 = _
      rw [a2bGo_step0 h0, a2bGo_step1 h1, a2bGo_pad2_first, a2bGo_pad2_second]
      rfl
    | [c0, c1, c2] =>
      rcases Option.isSome_iff_exists.mp (hval c0 (by simp)) with ⟨v0, h0⟩
      rcases Option.isSome_iff_exists.mp (hval c1 (by simp)) with ⟨v1, h1⟩
      rcases Option.isSome_iff_exists.mp (hval c2 (by simp)) with ⟨v2, h2⟩
      refine ⟨[v0 * 4 + v1 / 16, v1 % 16 * 16 + v2 / 4], ?_⟩
      have hrep : (4 - ([c0, c1, c2] : Str).length % 4) % 4 = 1 := by simp
      rw [hrep]
      show a2bGo (c0 :: c1 :: c2 :: '=' :: []) 0 0 0 = _
      rw [a2bGo_step0 h0, a2bGo_step1 h1, a2bGo_step2 h2, a2bGo_pad3]
      rfl
    | c0 :: c1 :: c2 :: c3 :: rest =>
      rcases Option.isSome_iff_exists.mp (hval c0 (by simp)) with ⟨v0, h0⟩
      rcases Option.isSome_iff_exists.mp (hval c1 (by simp)) with ⟨v1, h1⟩
      rcases Option.isSome_iff_exists.mp (hval c2 (by simp)) with ⟨v2, h2⟩
      rcases Option.isSome_iff_exists.mp (hval c3 (by simp)) with ⟨v3, h3⟩
      have hlen : (c0 :: c1 :: c2 :: c3 :: rest : Str).length = 4 + rest.length := by
        simp
        omega
      have hmod4 : (c0 :: c1 :: c2 :: c3 :: rest : Str).length % 4 = rest.length % 4 := by
        rw [hlen]
        omega
      rcases ih rest (by rw [hlen] at hn; omega)
          (fun c hm => hval c (by simp [hm])) (by rw [hmod4] at hmod; exact hmod) with ⟨bs, hbs⟩
      refine ⟨(v0 * 4 + v1 / 16) :: (v1 % 16 * 16 + v2 / 4) :: (v2 % 4 * 64 + v3) :: bs, ?_⟩
      rw [hmod4]
      show a2bGo (c0 :: c1 :: c2 :: c3 ::
        (rest ++ List.replicate ((4 - rest.length % 4) % 4) '=')) 0 0 0 = _
      rw [a2bGo_quad h0 h1 h2 h3, hbs]
      rfl

/-- C7 (counterexample): `b64decode_any` does not return on every input —
for the single-character string `A` both the URL-safe and the standard
decoder raise (one data character cannot remain), so the exception escapes
the function. -/
theorem b64decode_any_raises_on_A : b64decode_any (cs "A") = .error () := rfl

/-- C7 (amended): `b64decode_any` returns empty bytes for the empty string
and returns bytes without raising on every string of base64-alphabet
characters (either alphabet) whose length is not 1 modulo 4 — trimming
whitespace, appending the padding deficit and trying the URL-safe decoder
first as claimed; but an input whose alphabet-character count is 1 modulo
4 (such as `A`) makes both decoders raise, and the exception escapes to
the caller. -/
theorem b64decode_any_no_raise_amended :
    b64decode_any [] = .ok [] ∧
    (∀ s : Str, (∀ c ∈ s, b64AlphaAny c = true) → s.length % 4 ≠ 1 →
      ∃ bs, b64decode_any s = .ok bs) := by
  refine ⟨rfl, ?_⟩
  intro s hval hmod
  have hstrip : pyStrip s = s := pyStrip_eq_self (fun c m => b64AlphaAny_not_space (hval c m))
  unfold b64decode_any
  rw [hstrip]
  by_cases hnil : s = []
  · subst hnil
    exact ⟨[], rfl⟩
  · rw [if_neg hnil]
    have hvm : ∀ c ∈ s.map urlsafeTrans, (sextet c).isSome = true := by
      intro c hm
      rcases List.mem_map.mp hm with ⟨d, hd, rfl⟩
      exact hval d hd
    have hlm : (s.map urlsafeTrans).length = s.length := by simp
    rcases a2bGo_valid_pad (s.map urlsafeTrans).length (s.map urlsafeTrans)
        (Nat.le_refl _) hvm (by rw [hlm]; exact hmod) with ⟨bs, hbs⟩
    refine ⟨bs, ?_⟩
    unfold urlsafe_b64decode b64decode
    rw [hlm] at hbs
    rw [List.map_append, map_urlsafeTrans_replicate, hbs]

/-- Witness for the amended C7 at the two-character alphabet string `QQ`. -/
theorem b64decode_any_no_raise_amended_witness :
    ((∀ c ∈ cs "QQ", b64AlphaAny c = true) ∧ (cs "QQ").length % 4 ≠ 1) ∧
    (b64decode_any [] = .ok [] ∧ ∃ bs, b64decode_any (cs "QQ") = .ok bs) :=
  ⟨⟨by decide, by decide⟩,
   ⟨b64decode_any_no_raise_amended.1,
    b64decode_any_no_raise_amended.2 (cs "QQ") (by decide) (by decide)⟩⟩

theorem ssSafe_parts {c : Char} (h : ssSafe c = true) :
    c.toNat < 128 ∧ isPySpace c = false ∧ c ≠ '#' ∧ c ≠ '?' ∧ c ≠ '%' ∧ c ≠ '@' := by
  simp only [ssSafe, Bool.and_eq_true, decide_eq_true_eq, bne_iff_ne,
    Bool.not_eq_true'] at h
  tauto

theorem digit_char_facts {c : Char} (h : c.isDigit = true) :
    c.toNat < 128 ∧ c ≠ '#' ∧ c ≠ '?' ∧ c ≠ '%' ∧ c ≠ '@' ∧ c ≠ ':' ∧ c ≠ '[' := by
  obtain ⟨h1, h2⟩ := isDigit_toNat h
  refine ⟨by omega, ?_, ?_, ?_, ?_, ?_, ?_⟩ <;>
    (intro e; rw [e] at h1 h2; revert h1 h2; decide)

theorem ssFromRest2_cleartext (m p h ps : Str)
    (hm : ∀ c ∈ m, ssSafe c = true) (hpw : ∀ c ∈ p, ssSafe c = true)
    (hh : ∀ c ∈ h, ssSafe c = true) (hmc : ':' ∉ m)
    (hhb : ∀ t, h ≠ '[' :: t) (hps : ps ≠ []) (hpd : ∀ c ∈ ps, c.isDigit = true) :
    ssFromRest2 (m ++ ':' :: p ++ '@' :: h ++ ':' :: ps) [] =
      .ok (some (mkSsNode [] m p h ((digitsVal ps : Nat) : Int))) := by
  have hAtAuth : '@' ∉ m ++ ':' :: p := by
    intro hc
    rcases List.mem_append.mp hc with hc | hc
    · exact (ssSafe_parts (hm _ hc)).2.2.2.2.2 rfl
    · rcases List.mem_cons.mp hc with e | hc
      · exact absurd e (by decide)
      · exact (ssSafe_parts (hpw _ hc)).2.2.2.2.2 rfl
  have hassoc : (m ++ ':' :: p ++ '@' :: h ++ ':' :: ps : Str) =
      (m ++ ':' :: p) ++ '@' :: (h ++ ':' :: ps) := by
    simp
  have hsplitR : splitOnce (m ++ ':' :: p ++ '@' :: h ++ ':' :: ps) '@' =
      (m ++ ':' :: p, h ++ ':' :: ps) := by
    rw [hassoc]
    exact splitOnce_append _ hAtAuth
  have hAtT : (m ++ ':' :: p ++ '@' :: h ++ ':' :: ps : Str).contains '@' = true := by
    rw [contains_iff, hassoc]
    exact List.mem_append_right _ (by simp)
  have hAuthColon : (m ++ ':' :: p : Str).contains ':' = true := by
    rw [contains_iff]
    exact List.mem_append_right _ (by simp)
  have hsplitAuth : splitOnce (m ++ ':' :: p) ':' = (m, p) := splitOnce_append _ hmc
  have hWsHP : ∀ c ∈ (h ++ ':' :: ps : Str), isPySpace c = false := by
    intro c hc
    rcases List.mem_append.mp hc with hc | hc
    · exact (ssSafe_parts (hh _ hc)).2.1
    · rcases List.mem_cons.mp hc with e | hc
      · rw [e]
        decide
      · exact isDigit_not_space (hpd _ hc)
  have hstripHP : pyStrip (h ++ ':' :: ps) = h ++ ':' :: ps := pyStrip_eq_self hWsHP
  have hColPs : ':' ∉ ps := by
    intro hc
    exact (digit_char_facts (hpd _ hc)).2.2.2.2.2.1 rfl
  have hrsplit : rsplitOnce (h ++ ':' :: ps) ':' = (h, ps) := rsplitOnce_append _ hColPs
  have hHPcolon : (h ++ ':' :: ps : Str).contains ':' = true := by
    rw [contains_iff]
    exact List.mem_append_right _ (by simp)
  unfold ssFromRest2
  rw [hAtT]
  try dsimp only
  rw [hsplitR]
  try dsimp only
  rw [hAuthColon]
  try dsimp only
  rw [hsplitAuth]
  try dsimp only
  rw [hstripHP]
  unfold ssHostPort
  have hbr : (match (h ++ ':' :: ps : Str) with
      | '[' :: _ => true | _ => false) = false := by
    cases h with
    | nil => rfl
    | cons c t =>
      show (match (c :: (t ++ ':' :: ps) : Str) with
        | '[' :: _ => true | _ => false) = false
      split
      · rename_i heq
        rw [List.cons.injEq] at heq
        exact absurd (heq.1 ▸ rfl : (c :: t : Str) = '[' :: t) (hhb t)
      · rfl
  rw [hbr]
  try dsimp only
  rw [hHPcolon]
  try dsimp only
  rw [hrsplit]
  try dsimp only
  rw [pyInt_digits hps hpd]
  rfl


theorem if_false_bool {α : Sort _} (a b : α) : (if (false = true) then a else b) = b := by
  simp

theorem if_true_bool {α : Sort _} (a b : α) : (if (true = true) then a else b) = a := by
  simp

theorem ssR_mem (m p h ps : Str)
    (hm : ∀ c ∈ m, ssSafe c = true) (hpw : ∀ c ∈ p, ssSafe c = true)
    (hh : ∀ c ∈ h, ssSafe c = true) (hpd : ∀ c ∈ ps, c.isDigit = true) :
    ∀ c ∈ (m ++ ':' :: p ++ '@' :: h ++ ':' :: ps : Str),
      ssSafe c = true ∨ c = ':' ∨ c = '@' ∨ c.isDigit = true := by
  intro c hc
  simp only [List.mem_append, List.mem_cons] at hc
  have h1 := hm c
  have h2 := hpw c
  have h3 := hh c
  have h4 := hpd c
  tauto

theorem parse_ss_nav_clear (m p h ps : Str)
    (hm : ∀ c ∈ m, ssSafe c = true) (hpw : ∀ c ∈ p, ssSafe c = true)
    (hh : ∀ c ∈ h, ssSafe c = true) (hpd : ∀ c ∈ ps, c.isDigit = true) :
    parse_ss (cs "ss://" ++ (m ++ ':' :: p ++ '@' :: h ++ ':' :: ps)) =
      ssFromRest2 (m ++ ':' :: p ++ '@' :: h ++ ':' :: ps) [] := by
  have hRmem := ssR_mem m p h ps hm hpw hh hpd
  have noHash : ('#' : Char) ∉ (m ++ ':' :: p ++ '@' :: h ++ ':' :: ps : Str) := by
    intro hmem
    rcases hRmem '#' hmem with hs | e | e | hd
    · exact absurd hs (by decide)
    · exact absurd e (by decide)
    · exact absurd e (by decide)
    · exact absurd hd (by decide)
  have noQk : ('?' : Char) ∉ (m ++ ':' :: p ++ '@' :: h ++ ':' :: ps : Str) := by
    intro hmem
    rcases hRmem '?' hmem with hs | e | e | hd
    · exact absurd hs (by decide)
    · exact absurd e (by decide)
    · exact absurd e (by decide)
    · exact absurd hd (by decide)
  have noPct : ('%' : Char) ∉ (m ++ ':' :: p ++ '@' :: h ++ ':' :: ps : Str) := by
    intro hmem
    rcases hRmem '%' hmem with hs | e | e | hd
    · exact absurd hs (by decide)
    · exact absurd e (by decide)
    · exact absurd e (by decide)
    · exact absurd hd (by decide)
  have noWsR : ∀ c ∈ (m ++ ':' :: p ++ '@' :: h ++ ':' :: ps : Str), isPySpace c = false := by
    intro c hc
    rcases hRmem c hc with hs | e | e | hd
    · exact (ssSafe_parts hs).2.1
    · rw [e]
      decide
    · rw [e]
      decide
    · exact isDigit_not_space hd
  have hstripR : pyStrip (m ++ ':' :: p ++ '@' :: h ++ ':' :: ps) =
      m ++ ':' :: p ++ '@' :: h ++ ':' :: ps := pyStrip_eq_self noWsR
  have hHashF : (m ++ ':' :: p ++ '@' :: h ++ ':' :: ps : Str).contains '#' = false :=
    contains_eq_false noHash
  have hQF : (m ++ ':' :: p ++ '@' :: h ++ ':' :: ps : Str).contains '?' = false :=
    contains_eq_false noQk
  have hunqR : unquote (m ++ ':' :: p ++ '@' :: h ++ ':' :: ps) =
      m ++ ':' :: p ++ '@' :: h ++ ':' :: ps := unquote_eq_self noPct
  have hAtAuth : '@' ∉ m ++ ':' :: p := by
    intro hc
    rcases List.mem_append.mp hc with hc | hc
    · exact (ssSafe_parts (hm _ hc)).2.2.2.2.2 rfl
    · rcases List.mem_cons.mp hc with e | hc
      · exact absurd e (by decide)
      · exact (ssSafe_parts (hpw _ hc)).2.2.2.2.2 rfl
  have hassoc : (m ++ ':' :: p ++ '@' :: h ++ ':' :: ps : Str) =
      (m ++ ':' :: p) ++ '@' :: (h ++ ':' :: ps) := by
    simp
  have hsplitR : splitOnce (m ++ ':' :: p ++ '@' :: h ++ ':' :: ps) '@' =
      (m ++ ':' :: p, h ++ ':' :: ps) := by
    rw [hassoc]
    exact splitOnce_append _ hAtAuth
  have hAtT : (m ++ ':' :: p ++ '@' :: h ++ ':' :: ps : Str).contains '@' = true := by
    rw [contains_iff, hassoc]
    exact List.mem_append_right _ (by simp)
  have hAuthColon : (m ++ ':' :: p : Str).contains ':' = true := by
    rw [contains_iff]
    exact List.mem_append_right _ (by simp)
  have hcondF : (!(m ++ ':' :: p ++ '@' :: h ++ ':' :: ps : Str).contains '@' ||
      !(splitOnce (m ++ ':' :: p ++ '@' :: h ++ ':' :: ps) '@').1.contains ':') = false := by
    rw [hAtT, hsplitR]
    try dsimp only
    rw [hAuthColon]
    rfl
  have h5 : ((cs "ss://" ++ (m ++ ':' :: p ++ '@' :: h ++ ':' :: ps) : Str)).drop 5 =
      m ++ ':' :: p ++ '@' :: h ++ ':' :: ps := rfl
  unfold parse_ss
  rw [h5, hstripR]
  dsimp only
  rw [hHashF]
  simp only [if_false_bool]
  rw [hQF]
  simp only [if_false_bool]
  rw [hstripR, hcondF]
  simp only [if_false_bool]
  rw [hunqR]

theorem encChar_line_safe : ∀ k : Fin 64, isPySpace (encChar k.val) = false ∧
    encChar k.val ≠ '#' ∧ encChar k.val ≠ '?' ∧ encChar k.val ≠ '@' := by
  decide

theorem ssR_not_space (m p h ps : Str)
    (hm : ∀ c ∈ m, ssSafe c = true) (hpw : ∀ c ∈ p, ssSafe c = true)
    (hh : ∀ c ∈ h, ssSafe c = true) (hpd : ∀ c ∈ ps, c.isDigit = true) :
    ∀ c ∈ (m ++ ':' :: p ++ '@' :: h ++ ':' :: ps : Str), isPySpace c = false := by
  intro c hc
  rcases ssR_mem m p h ps hm hpw hh hpd c hc with hs | e | e | hd
  · exact (ssSafe_parts hs).2.1
  · rw [e]
    decide
  · rw [e]
    decide
  · exact isDigit_not_space hd

theorem ssR_ascii (m p h ps : Str)
    (hm : ∀ c ∈ m, ssSafe c = true) (hpw : ∀ c ∈ p, ssSafe c = true)
    (hh : ∀ c ∈ h, ssSafe c = true) (hpd : ∀ c ∈ ps, c.isDigit = true) :
    ∀ c ∈ (m ++ ':' :: p ++ '@' :: h ++ ':' :: ps : Str), c.toNat < 128 := by
  intro c hc
  rcases ssR_mem m p h ps hm hpw hh hpd c hc with hs | e | e | hd
  · exact (ssSafe_parts hs).1
  · rw [e]
    decide
  · rw [e]
    decide
  · obtain ⟨_, h2⟩ := isDigit_toNat hd
    omega

theorem parse_ss_nav_b64 (m p h ps : Str)
    (hm : ∀ c ∈ m, ssSafe c = true) (hpw : ∀ c ∈ p, ssSafe c = true)
    (hh : ∀ c ∈ h, ssSafe c = true) (hpd : ∀ c ∈ ps, c.isDigit = true) :
    parse_ss (cs "ss://" ++
        b64encode ((m ++ ':' :: p ++ '@' :: h ++ ':' :: ps).map Char.toNat)) =
      ssFromRest2 (m ++ ':' :: p ++ '@' :: h ++ ':' :: ps) [] := by
  have hascii := ssR_ascii m p h ps hm hpw hh hpd
  have hbytes : ∀ x ∈ (m ++ ':' :: p ++ '@' :: h ++ ':' :: ps : Str).map Char.toNat,
      x < 256 := by
    intro x hx
    rcases List.mem_map.mp hx with ⟨c, hc, rfl⟩
    have := hascii c hc
    omega
  have hEprops : ∀ c ∈ b64encode ((m ++ ':' :: p ++ '@' :: h ++ ':' :: ps).map Char.toNat),
      isPySpace c = false ∧ c ≠ '#' ∧ c ≠ '?' ∧ c ≠ '@' := by
    refine b64encode_chars (fun k hk => encChar_line_safe ⟨k, hk⟩) (by decide) _ hbytes
  have hstripE : pyStrip (b64encode ((m ++ ':' :: p ++ '@' :: h ++ ':' :: ps).map
      Char.toNat)) = b64encode ((m ++ ':' :: p ++ '@' :: h ++ ':' :: ps).map Char.toNat) :=
    pyStrip_eq_self (fun c hc => (hEprops c hc).1)
  have hHashE : (b64encode ((m ++ ':' :: p ++ '@' :: h ++ ':' :: ps).map
      Char.toNat)).contains '#' = false :=
    contains_eq_false (fun hmem => (hEprops _ hmem).2.1 rfl)
  have hQE : (b64encode ((m ++ ':' :: p ++ '@' :: h ++ ':' :: ps).map
      Char.toNat)).contains '?' = false :=
    contains_eq_false (fun hmem => (hEprops _ hmem).2.2.1 rfl)
  have hAtE : (b64encode ((m ++ ':' :: p ++ '@' :: h ++ ':' :: ps).map
      Char.toNat)).contains '@' = false :=
    contains_eq_false (fun hmem => (hEprops _ hmem).2.2.2 rfl)
  have hgId : ∀ k, k < 64 → sextet (urlsafeTrans (id (encChar k))) = some k :=
    fun k hk => sextet_enc_id ⟨k, hk⟩
  have hwsId : ∀ k, k < 64 → isPySpace (id (encChar k)) = false :=
    fun k hk => (encChar_not_space ⟨k, hk⟩).1
  have hdecE : b64decode_any (b64encode ((m ++ ':' :: p ++ '@' :: h ++ ':' :: ps).map
      Char.toNat)) = .ok ((m ++ ':' :: p ++ '@' :: h ++ ':' :: ps).map Char.toNat) := by
    have := b64decode_any_padded_mapped id hgId hwsId rfl _ hbytes
    rwa [List.map_id] at this
  have hcondT : (!(b64encode ((m ++ ':' :: p ++ '@' :: h ++ ':' :: ps).map
      Char.toNat)).contains '@' ||
      !(splitOnce (b64encode ((m ++ ':' :: p ++ '@' :: h ++ ':' :: ps).map Char.toNat))
        '@').1.contains ':') = true := by
    rw [hAtE]
    rfl
  have h5 : ((cs "ss://" ++ b64encode ((m ++ ':' :: p ++ '@' :: h ++ ':' :: ps).map
      Char.toNat) : Str)).drop 5 =
      b64encode ((m ++ ':' :: p ++ '@' :: h ++ ':' :: ps).map Char.toNat) := rfl
  have hstripR : pyStrip (m ++ ':' :: p ++ '@' :: h ++ ':' :: ps) =
      m ++ ':' :: p ++ '@' :: h ++ ':' :: ps :=
    pyStrip_eq_self (ssR_not_space m p h ps hm hpw hh hpd)
  unfold parse_ss
  rw [h5, hstripE]
  dsimp only
  rw [hHashE]
  simp only [if_false_bool]
  rw [hQE]
  simp only [if_false_bool]
  rw [hstripE, hcondT]
  simp only [if_true_bool]
  rw [hdecE]
  dsimp only
  rw [utf8DecIgnore_ascii hascii, hstripR]
  rw [if_pos trivial]

/-- C2: for a valid cleartext line `ss://method:password@host:port` (method,
password and host made of characters the parser treats literally: ASCII,
no whitespace and none of `#`, `?`, `%`, `@`; no `:` in the method; host not
starting with `[`; port a non-empty digit string), `parse_ss` returns a
descriptor whose `cipher`, `password`, `server` and `port` entries are exactly
the method, password, host and numeric port; and on the base64-wrapped line
`ss://BASE64(method:password@host:port)` of the same credentials, `parse_ss`
returns the identical descriptor. -/
theorem parse_ss_roundtrip (m p h ps : Str)
    (hm : ∀ c ∈ m, ssSafe c = true) (hpw : ∀ c ∈ p, ssSafe c = true)
    (hh : ∀ c ∈ h, ssSafe c = true) (hpd : ∀ c ∈ ps, c.isDigit = true)
    (hmc : ':' ∉ m) (hhb : ∀ t, h ≠ '[' :: t) (hps : ps ≠ []) :
    ∃ n, parse_ss (cs "ss://" ++ (m ++ ':' :: p ++ '@' :: h ++ ':' :: ps)) =
        .ok (some n) ∧
      dictGet n.data (cs "cipher") = some (.str m) ∧
      dictGet n.data (cs "password") = some (.str p) ∧
      dictGet n.data (cs "server") = some (.str h) ∧
      dictGet n.data (cs "port") = some (.num ((digitsVal ps : Nat) : Int)) ∧
      parse_ss (cs "ss://" ++
          b64encode ((m ++ ':' :: p ++ '@' :: h ++ ':' :: ps).map Char.toNat)) =
        .ok (some n) := by
  have hval := ssFromRest2_cleartext m p h ps hm hpw hh hmc hhb hps hpd
  refine ⟨mkSsNode [] m p h ((digitsVal ps : Nat) : Int),
    (parse_ss_nav_clear m p h ps hm hpw hh hpd).trans hval, rfl, rfl, rfl, rfl,
    (parse_ss_nav_b64 m p h ps hm hpw hh hpd).trans hval⟩

theorem parse_ss_roundtrip_witness :
    ∃ n, parse_ss (cs "ss://" ++
        (cs "aes" ++ ':' :: cs "pw" ++ '@' :: cs "1.2.3.4" ++ ':' :: cs "443")) =
        .ok (some n) ∧
      dictGet n.data (cs "cipher") = some (.str (cs "aes")) ∧
      dictGet n.data (cs "password") = some (.str (cs "pw")) ∧
      dictGet n.data (cs "server") = some (.str (cs "1.2.3.4")) ∧
      dictGet n.data (cs "port") = some (.num (443 : Int)) ∧
      parse_ss (cs "ss://" ++
          b64encode ((cs "aes" ++ ':' :: cs "pw" ++ '@' :: cs "1.2.3.4" ++ ':' ::
            cs "443").map Char.toNat)) =
        .ok (some n) :=
  parse_ss_roundtrip (cs "aes") (cs "pw") (cs "1.2.3.4") (cs "443")
    (by decide) (by decide) (by decide) (by decide) (by decide)
    (fun t ht => by simp [cs] at ht) (by decide)
